import Mathlib

set_option maxRecDepth 8000

/-!
Verification of the logstash formatter (logstash/formatter.py).

The Python source is shallowly embedded: Python runtime values are the
inductive type PyValue, a log record is its attribute dictionary plus the
externally supplied results of record.getMessage() and
traceback.format_exception (both produced by the standard library, outside
this repository), and each method of LogstashFormatterBase /
LogstashFormatterVersion0 / LogstashFormatterVersion1 becomes a Lean
function over that model.  Python dict assignment and dict.update are
modelled with association lists whose update semantics (replace the value
in place for an existing key, append new keys in order) mirror CPython.
Fallible operations (json.dumps raising TypeError,
datetime.utcfromtimestamp raising on out-of-range years) return Option.
-/

/-- Model of a Python runtime value as seen by the formatter.
str, bool, int, float, NoneType, list and dict are the "easy types" of
get_log_fields (formatter.py line 57); obj stands for a value of any
other class, carrying the string that repr() returns for it.  Python
floats are idealised as exact rationals. -/
inductive PyValue where
  | str (s : String)
  | bool (b : Bool)
  | int (n : Int)
  | float (q : Rat)
  | null
  | list (xs : List PyValue)
  | dict (xs : List (String × PyValue))
  | obj (r : String)

/-- Python truthiness (bool(v)): None, False, zero, empty string and empty
containers are falsy; instances of plain classes are truthy. -/
def pyTruthy : PyValue → Bool
  | .str s => s != ""
  | .bool b => b
  | .int n => n != 0
  | .float q => q != 0
  | .null => false
  | .list xs => !xs.isEmpty
  | .dict xs => !xs.isEmpty
  | .obj _ => true

/-- isinstance(value, easy_types) for the Python-3 branch of
get_log_fields (formatter.py line 57): str, bool, dict, float, int, list,
NoneType. -/
def easyType : PyValue → Bool
  | .str _ => true
  | .bool _ => true
  | .dict _ => true
  | .float _ => true
  | .int _ => true
  | .list _ => true
  | .null => true
  | .obj _ => false

/-- Simplified model of the text repr() produces for a Python float; no
claim in this development depends on its exact shape. -/
def floatText (q : Rat) : String :=
  if q.den == 1 then toString q.num ++ ".0" else toString q

/-- The apostrophe character, used by repr() to quote strings. -/
def squo : Char := Char.ofNat 39

mutual

/-- Model of Python repr() on PyValue; for an obj it is the repr string
the object carries. -/
def pyRepr : PyValue → String
  | .str s => String.mk (squo :: s.data) ++ String.mk [squo]
  | .bool b => cond b "True" "False"
  | .int n => toString n
  | .float q => floatText q
  | .null => "None"
  | .list xs => "[" ++ String.intercalate ", " (pyReprList xs) ++ "]"
  | .dict xs => "\x7b" ++ String.intercalate ", " (pyReprDict xs) ++ "\x7d"
  | .obj r => r

def pyReprList : List PyValue → List String
  | [] => []
  | v :: vs => pyRepr v :: pyReprList vs

def pyReprDict : List (String × PyValue) → List String
  | [] => []
  | kv :: rest =>
      (String.mk (squo :: kv.1.data) ++ String.mk [squo] ++ ": " ++ pyRepr kv.2)
        :: pyReprDict rest

end

/-- Model of Python str() on PyValue (used by the "%s" interpolation of
format_source); identical to repr() except on strings. -/
def pyStr : PyValue → String
  | .str s => s
  | v => pyRepr v

/-- First value stored under key k in an association list (a Python dict
holds each key once, so this is the value of that key). -/
def alookup (k : String) : List (String × PyValue) → Option PyValue
  | [] => none
  | kv :: rest => if kv.1 = k then some kv.2 else alookup k rest

/-- Python dict assignment d[k] = v: replace the value in place when the
key exists, otherwise append the new key. -/
def updateOne (d : List (String × PyValue)) (k : String) (v : PyValue) :
    List (String × PyValue) :=
  if d.any (fun kv => kv.1 = k) then
    d.map (fun kv => if kv.1 = k then (k, v) else kv)
  else
    d ++ [(k, v)]

/-- Python dict.update(u): assign every pair of u, in order, into d. -/
def dictUpdate (d u : List (String × PyValue)) : List (String × PyValue) :=
  u.foldl (fun acc kv => updateOne acc kv.1 kv.2) d

/-- Each key occurs at most once, as in a Python dict. -/
def NodupKeys (d : List (String × PyValue)) : Prop :=
  (d.map (fun kv => kv.1)).Nodup

/-- A log record: its attribute dictionary record.__dict__ (insertion
order, each key once), together with the results of the two standard
library calls the formatter makes on it.  renderedMessage models
record.getMessage() (the message template with args interpolated) and
excText models what traceback.format_exception returns for the record's
exc_info tuple; both are produced outside this repository. -/
structure LogRecord where
  attrs : List (String × PyValue)
  renderedMessage : String
  excText : String

/-- Attribute access record.k for the standard record attributes.  The
model is total with default None; a real LogRecord always defines the
attributes this development reads through it (name, levelname, pathname,
lineno, process, threadName, funcName, processName, exc_info, created),
so no AttributeError path is reachable on real records.  Theorems whose
content depends on an attribute being present carry that presence as a
hypothesis. -/
def getattrD (r : LogRecord) (k : String) : PyValue :=
  (alookup k r.attrs).getD .null

/-- getattr(record, k, default). -/
def getattrOr (r : LogRecord) (k : String) (d : PyValue) : PyValue :=
  (alookup k r.attrs).getD d

/-- Truthiness of record.exc_info (the guard of the debug-fields merge and
of format_exception: a present exception triple is a non-empty tuple,
hence truthy; None is falsy). -/
def hasExc (r : LogRecord) : Bool :=
  pyTruthy (getattrD r "exc_info")

/-- LogstashFormatterBase.format_exception (formatter.py lines 109-111):
the joined traceback text when exc_info is truthy, else the empty
string.  The traceback text itself comes from the standard library and is
carried by the record model. -/
def format_exception (r : LogRecord) : String :=
  if hasExc r then r.excText else ""

/-- One entry of the log_attrs constructor argument: either a plain
attribute name or an (attr_name, attr_translation) tuple
(formatter.py lines 20-27). -/
inductive LogAttr where
  | name (s : String)
  | pair (s d : String)

/-- The default attribute list of __init__ (formatter.py line 33). -/
def defaultLogAttrs : List LogAttr :=
  [.name "message", .pair "pathname" "path",
   .pair "levelname" "level", .pair "name" "logger_name"]

/-- The log_attrs normalisation of __init__ (formatter.py lines 32-40):
a falsy argument (None or the empty list) is replaced by the default
list, then every entry is turned into a (source, destination) pair, a
plain name standing for itself. -/
def normalizeLogAttrs (log_attrs : Option (List LogAttr)) :
    List (String × String) :=
  let attrs := match log_attrs with
    | none => defaultLogAttrs
    | some l => if l.isEmpty then defaultLogAttrs else l
  attrs.map fun a => match a with
    | .name s => (s, s)
    | .pair s d => (s, d)

/-- The immutable state a formatter holds after __init__
(formatter.py lines 14-50): message_type, tags (a list of strings,
defaulting to empty), the host name resolved once at construction
(socket.getfqdn() or socket.gethostname() depending on the fqdn flag;
the resolution itself is outside the model, the resolved value is
stored), the normalised attribute mapping and the optional extra_fields
dict. -/
structure Config where
  message_type : String
  tags : List String
  host : String
  log_attrs : List (String × String)
  extra_fields : Option (List (String × PyValue))

/-- LogstashFormatterBase.__init__ with the host already resolved. -/
def mkConfig (message_type : String) (tags : Option (List String))
    (host : String) (log_attrs : Option (List LogAttr))
    (extra_fields : Option (List (String × PyValue))) : Config :=
  { message_type := message_type
    tags := tags.getD []
    host := host
    log_attrs := normalizeLogAttrs log_attrs
    extra_fields := extra_fields }

/-- The destination name the source pairs with key: log_keys.index(key)
takes the first spec pair whose source attribute is key, and
field_names[idx] is that pair's destination (formatter.py lines 61-70);
none when key is not in log_keys. -/
def destFor (spec : List (String × String)) (k : String) : Option String :=
  (spec.find? (fun p => p.1 = k)).map (fun p => p.2)

/-- The value stored for an extracted attribute: an easy-typed value is
copied as is, anything else is replaced by its repr() string
(formatter.py lines 67-70). -/
def coerceValue (v : PyValue) : PyValue :=
  if easyType v then v else .str (pyRepr v)

/-- LogstashFormatterBase.get_log_fields (formatter.py lines 52-72):
walk record.__dict__ in order; every attribute whose name is in
log_keys is stored under its translated name, coerced. -/
def get_log_fields (spec : List (String × String)) (r : LogRecord) :
    List (String × PyValue) :=
  r.attrs.foldl
    (fun fields kv =>
      match destFor spec kv.1 with
      | some dest => updateOne fields dest (coerceValue kv.2)
      | none => fields)
    []

/-- First half of LogstashFormatterBase.get_debug_fields
(formatter.py lines 76-89): the four unconditional debug entries, then
funcName and processName, each added only when
getattr(record, ..., None) is falsy. -/
def debugFieldsRaw (r : LogRecord) : List (String × PyValue) :=
  let fields : List (String × PyValue) :=
    [("stack_trace", .str (format_exception r)),
     ("lineno", getattrD r "lineno"),
     ("process", getattrD r "process"),
     ("thread_name", getattrD r "threadName")]
  let fields :=
    if pyTruthy (getattrOr r "funcName" .null) then fields
    else updateOne fields "funcName" (getattrD r "funcName")
  if pyTruthy (getattrOr r "processName" .null) then fields
  else updateOne fields "processName" (getattrD r "processName")

/-- LogstashFormatterBase.get_debug_fields (formatter.py lines 74-97):
the raw debug entries, from which every key that appears among the
spec's SOURCE attribute names (log_keys) is deleted. -/
def get_debug_fields (spec : List (String × String)) (r : LogRecord) :
    List (String × PyValue) :=
  (debugFieldsRaw r).filter
    (fun kv => !((spec.map (fun p => p.1)).contains kv.1))

/-- LogstashFormatterBase.format_source (formatter.py lines 100-102):
"%s://%s/%s" % (message_type, host, path). -/
def format_source (message_type host path : String) : String :=
  message_type ++ "://" ++ host ++ "/" ++ path

/-! ### Timestamp model

format_timestamp (formatter.py lines 104-107) runs
datetime.utcfromtimestamp(time) and renders it with
strftime("%Y-%m-%dT%H:%M:%S") plus ".%03d" % (microsecond / 1000) and a
trailing "Z".  The model follows CPython's datetime._fromtimestamp: split
the input with math.modf (integer part truncated towards zero), round the
fractional part to whole microseconds with round-half-to-even, carry an
overflowing or negative microsecond into the seconds, convert the integer
seconds with time.gmtime (proleptic Gregorian, floor division on days),
and fail (OverflowError / out-of-range year) when the year leaves 1..9999.
The float argument is idealised as an exact rational. -/

/-- Truncation of a rational towards zero (the integer part that
math.modf splits off), computed on the numerator and denominator with
euclidean division so that concrete values reduce in the kernel. -/
def ratTrunc (q : Rat) : Int :=
  if 0 ≤ q.num then q.num / (q.den : Int) else -((-q.num) / (q.den : Int))

/-- Python round() of the ratio a / b, for positive b: the nearest
integer, ties to even, computed with integer arithmetic only (f is the
floor of the ratio, r2 compares twice the fractional remainder with
one). -/
def pyRoundRatio (a b : Int) : Int :=
  let f := a / b
  let r2 := 2 * (a - f * b)
  if r2 < b then f
  else if b < r2 then f + 1
  else if f % 2 = 0 then f else f + 1

/-- round((q - ip) * 1e6) where ip is the truncated integer part: the
microsecond rounding of datetime._fromtimestamp, ties to even, as the
integer ratio ((num - ip*den) * 1e6) / den. -/
def usRound (q : Rat) : Int :=
  pyRoundRatio ((q.num - ratTrunc q * (q.den : Int)) * 1000000) (q.den : Int)

/-- Python round() of a rational: nearest integer, ties to even.  The
specification-level counterpart of pyRoundRatio, used in proofs. -/
def pyRoundQ (x : Rat) : Int :=
  if x - (⌊x⌋ : Rat) < 1/2 then ⌊x⌋
  else if (1/2 : Rat) < x - (⌊x⌋ : Rat) then ⌊x⌋ + 1
  else if ⌊x⌋ % 2 = 0 then ⌊x⌋ else ⌊x⌋ + 1

/-- Number of days in shifted year-of-era y (running from March of
calendar year y to February of calendar year y+1 inside an era of 400
calendar years): 366 days exactly when calendar year y+1 of the era is a
proleptic-Gregorian leap year. -/
def yearLen (y : Nat) : Nat :=
  if (y + 1) % 4 = 0 && ((y + 1) % 100 ≠ 0 || (y + 1) % 400 = 0) then 366
  else 365

/-- Days in the shifted years of an era strictly before year-of-era y. -/
def daysBeforeYoe : Nat → Nat
  | 0 => 0
  | y + 1 => daysBeforeYoe y + yearLen y

/-- Find the year-of-era holding day-of-era rem, scanning the at most 400
shifted years of an era; returns the year-of-era and the day within it. -/
def findYoe : Nat → Nat → Nat → Nat × Nat
  | 0, y, rem => (y, rem)
  | fuel + 1, y, rem =>
      if rem < yearLen y then (y, rem) else findYoe fuel (y + 1) (rem - yearLen y)

/-- Proleptic-Gregorian date for a day number counted from 0000-03-01
(the era origin of the 146097-day Gregorian cycle): era and day-of-era,
year-of-era by scanning year lengths, then month and day-of-month from
the day-of-shifted-year with the standard arithmetic (month index mp = 0
is March; mp 10 and 11 are January and February of the next calendar
year). -/
def civilFromDays (z : Nat) : Nat × Nat × Nat :=
  let era := z / 146097
  let doe := z % 146097
  let yd := findYoe 400 0 doe
  let doy := yd.2
  let mp := (5 * doy + 2) / 153
  let d := doy - (153 * mp + 2) / 5 + 1
  let m := if mp < 10 then mp + 3 else mp - 9
  let y := era * 400 + yd.1 + (if m ≤ 2 then 1 else 0)
  (y, m, d)

/-- The UTC fields datetime.utcfromtimestamp computes for an epoch-seconds
value: (year, month, day, hour, minute, second, microsecond); none when
the year falls outside datetime's 1..9999 range (the call raises).
Seconds are clamped with min(ss, 59) as in datetime._fromtimestamp. -/
def utcTimestampParts (q : Rat) :
    Option (Nat × Nat × Nat × Nat × Nat × Nat × Nat) :=
  let ip : Int := ratTrunc q
  let us0 : Int := usRound q
  let su : Int × Int :=
    if 1000000 ≤ us0 then (ip + 1, us0 - 1000000)
    else if us0 < 0 then (ip - 1, us0 + 1000000)
    else (ip, us0)
  let secs := su.1
  let days : Int := secs / 86400
  let sod : Nat := (secs % 86400).toNat
  let z : Int := days + 719468
  if z < 0 then none
  else
    let ymd := civilFromDays z.toNat
    if ymd.1 < 1 ∨ 9999 < ymd.1 then none
    else some (ymd.1, ymd.2.1, ymd.2.2,
               sod / 3600, sod % 3600 / 60, min (sod % 60) 59, su.2.toNat)

/-- The digits of n rendered in fixed width 2 ("%02d" of strftime's %m,
%d, %H, %M, %S; values of these fields never reach 100). -/
def pad2Chars (n : Nat) : List Char :=
  if n ≤ 99 then [Nat.digitChar (n / 10), Nat.digitChar (n % 10)]
  else (Nat.repr n).data

/-- The digits of n rendered in fixed width 3 ("%03d" of the millisecond
suffix; the value never reaches 1000). -/
def pad3Chars (n : Nat) : List Char :=
  if n ≤ 999 then
    [Nat.digitChar (n / 100), Nat.digitChar (n / 10 % 10), Nat.digitChar (n % 10)]
  else (Nat.repr n).data

/-- The year as rendered by strftime's %Y on glibc: the plain decimal
digits, with no padding below four digits (a four-digit year is written
with its four digits, a year below 1000 keeps its shorter decimal
form). -/
def yearChars (y : Nat) : List Char :=
  if 1000 ≤ y ∧ y ≤ 9999 then
    [Nat.digitChar (y / 1000), Nat.digitChar (y / 100 % 10),
     Nat.digitChar (y / 10 % 10), Nat.digitChar (y % 10)]
  else (Nat.repr y).data

/-- The character list of the rendered timestamp:
%Y-%m-%dT%H:%M:%S plus "." plus "%03d" % (microsecond / 1000) plus "Z".
The millisecond count is the floor of microsecond / 1000, as the %d
conversion truncates the float microsecond / 1000. -/
def timestampChars (p : Nat × Nat × Nat × Nat × Nat × Nat × Nat) : List Char :=
  yearChars p.1 ++ ['-'] ++ pad2Chars p.2.1 ++ ['-'] ++ pad2Chars p.2.2.1
    ++ ['T'] ++ pad2Chars p.2.2.2.1 ++ [':'] ++ pad2Chars p.2.2.2.2.1
    ++ [':'] ++ pad2Chars p.2.2.2.2.2.1 ++ ['.']
    ++ pad3Chars (p.2.2.2.2.2.2 / 1000) ++ ['Z']

/-- LogstashFormatterBase.format_timestamp (formatter.py lines 104-107);
none models the exception datetime raises for years outside 1..9999. -/
def format_timestamp (q : Rat) : Option String :=
  (utcTimestampParts q).map (fun p => String.mk (timestampChars p))

/-! ### Serialization

serialize (formatter.py lines 113-118) is bytes(json.dumps(message),
'utf-8'); the model produces the json.dumps text (the UTF-8 encoding of a
String is deterministic, so byte equality is string equality) and returns
none where json.dumps raises TypeError, namely as soon as a value of a
non-representable class (an obj) is reached. -/

/-- Hexadecimal digit characters of n in fixed width 4, for the
ensure_ascii escape form of json.dumps. -/
def hex4Chars (n : Nat) : List Char :=
  [Nat.digitChar (n / 4096 % 16), Nat.digitChar (n / 256 % 16),
   Nat.digitChar (n / 16 % 16), Nat.digitChar (n % 16)]

/-- json.dumps escaping of one character (default ensure_ascii=True):
backslash and double quote get a backslash, the named control escapes are
used for backspace, tab, newline, form feed and carriage return, every
other character outside the printable ASCII range 0x20..0x7e becomes a
uXXXX escape (a surrogate pair above 0xffff). -/
def jsonEscapeChar (c : Char) : List Char :=
  if c = '"' then ['\\', '"']
  else if c = '\\' then ['\\', '\\']
  else if c = Char.ofNat 8 then ['\\', 'b']
  else if c = Char.ofNat 9 then ['\\', 't']
  else if c = Char.ofNat 10 then ['\\', 'n']
  else if c = Char.ofNat 12 then ['\\', 'f']
  else if c = Char.ofNat 13 then ['\\', 'r']
  else if 32 ≤ c.toNat ∧ c.toNat ≤ 126 then [c]
  else if c.toNat < 65536 then '\\' :: 'u' :: hex4Chars c.toNat
  else
    '\\' :: 'u' :: hex4Chars (55296 + (c.toNat - 65536) / 1024)
      ++ '\\' :: 'u' :: hex4Chars (56320 + (c.toNat - 65536) % 1024)

/-- A JSON string literal for s: quote, escaped characters, quote. -/
def jsonQuote (s : String) : String :=
  String.mk ('"' :: (s.data.flatMap jsonEscapeChar) ++ ['"'])

mutual

/-- json.dumps on a PyValue, with the default separators
(", " between items, ": " after a key); none models the TypeError raised
for a value of a non-serializable class. -/
def jsonDump : PyValue → Option String
  | .str s => some (jsonQuote s)
  | .bool b => some (cond b "true" "false")
  | .int n => some (toString n)
  | .float q => some (floatText q)
  | .null => some "null"
  | .list xs =>
      match jsonDumpList xs with
      | some ys => some ("[" ++ String.intercalate ", " ys ++ "]")
      | none => none
  | .dict xs =>
      match jsonDumpDict xs with
      | some ys => some ("\x7b" ++ String.intercalate ", " ys ++ "\x7d")
      | none => none
  | .obj _ => none

def jsonDumpList : List PyValue → Option (List String)
  | [] => some []
  | v :: vs =>
      match jsonDump v, jsonDumpList vs with
      | some s, some ss => some (s :: ss)
      | _, _ => none

def jsonDumpDict : List (String × PyValue) → Option (List String)
  | [] => some []
  | kv :: rest =>
      match jsonDump kv.2, jsonDumpDict rest with
      | some s, some ss => some ((jsonQuote kv.1 ++ ": " ++ s) :: ss)
      | _, _ => none

end

mutual

/-- A value json.dumps accepts: no value of a non-serializable class
anywhere inside. -/
def jsonable : PyValue → Bool
  | .str _ => true
  | .bool _ => true
  | .int _ => true
  | .float _ => true
  | .null => true
  | .list xs => jsonableList xs
  | .dict xs => jsonableDict xs
  | .obj _ => false

/-- Every element serializable. -/
def jsonableList : List PyValue → Bool
  | [] => true
  | v :: vs => jsonable v && jsonableList vs

/-- Every value serializable. -/
def jsonableDict : List (String × PyValue) → Bool
  | [] => true
  | kv :: rest => jsonable kv.2 && jsonableDict rest

end

/-- LogstashFormatterBase.serialize (formatter.py lines 113-118). -/
def serialize (message : PyValue) : Option String :=
  jsonDump message

/-! ### The two format methods -/

/-- record.created as a rational (a float on a real record). -/
def createdQ (r : LogRecord) : Rat :=
  match getattrD r "created" with
  | .float q => q
  | .int n => (n : Rat)
  | _ => 0

/-- record.pathname as the string %s renders for it. -/
def pathnameStr (r : LogRecord) : String :=
  pyStr (getattrD r "pathname")

/-- Whether the extra-fields merge runs: the guard
if self.extra_fields (None and the empty dict are falsy). -/
def extraActive (c : Config) : Bool :=
  match c.extra_fields with
  | none => false
  | some l => ¬ l.isEmpty

/-- The extra_fields dict (empty when None). -/
def extraList (c : Config) : List (String × PyValue) :=
  (c.extra_fields).getD []

/-- The literal message dict LogstashFormatterVersion1.format starts from
(formatter.py lines 158-164), given the already-formatted timestamp. -/
def baseV1 (c : Config) (ts : String) : List (String × PyValue) :=
  [("@timestamp", .str ts),
   ("@version", .str "1"),
   ("host", .str c.host),
   ("tags", .list (c.tags.map (fun t => .str t))),
   ("type", .str c.message_type)]

/-- The three merge stages of LogstashFormatterVersion1.format
(formatter.py lines 166-175): log fields, then extra fields when truthy,
then debug fields when an exception is attached. -/
def buildV1core (c : Config) (r : LogRecord) (ts : String) :
    List (String × PyValue) :=
  let message := baseV1 c ts
  let message := dictUpdate message (get_log_fields c.log_attrs r)
  let message := if extraActive c then dictUpdate message (extraList c) else message
  let message := if hasExc r then dictUpdate message (get_debug_fields c.log_attrs r) else message
  message

/-- The final mapping LogstashFormatterVersion1.format serializes; none
when format_timestamp raises. -/
def buildV1 (c : Config) (r : LogRecord) : Option (List (String × PyValue)) :=
  match format_timestamp (createdQ r) with
  | some ts => some (buildV1core c r ts)
  | none => none

/-- LogstashFormatterVersion1.format (formatter.py lines 156-177): build
the mapping and serialize it; none models an exception escaping format
(timestamp out of range or json.dumps TypeError). -/
def formatV1 (c : Config) (r : LogRecord) : Option String :=
  match buildV1 c r with
  | some m => serialize (.dict m)
  | none => none

/-- The literal inner @fields dict LogstashFormatterVersion0.format
starts from (formatter.py lines 134-137). -/
def baseV0fields (r : LogRecord) : List (String × PyValue) :=
  [("levelname", getattrD r "levelname"),
   ("logger", getattrD r "name")]

/-- The three merge stages applied to @fields by
LogstashFormatterVersion0.format (formatter.py lines 140-149). -/
def buildV0fields (c : Config) (r : LogRecord) : List (String × PyValue) :=
  let fields := baseV0fields r
  let fields := dictUpdate fields (get_log_fields c.log_attrs r)
  let fields := if extraActive c then dictUpdate fields (extraList c) else fields
  let fields := if hasExc r then dictUpdate fields (get_debug_fields c.log_attrs r) else fields
  fields

/-- The full mapping LogstashFormatterVersion0.format serializes
(formatter.py lines 123-151). -/
def buildV0 (c : Config) (r : LogRecord) : Option (List (String × PyValue)) :=
  match format_timestamp (createdQ r) with
  | some ts => some
      [("@timestamp", .str ts),
       ("@message", .str r.renderedMessage),
       ("@source", .str (format_source c.message_type c.host (pathnameStr r))),
       ("@source_host", .str c.host),
       ("@source_path", .str (pathnameStr r)),
       ("@tags", .list (c.tags.map (fun t => .str t))),
       ("@type", .str c.message_type),
       ("@fields", .dict (buildV0fields c r))]
  | none => none

/-- LogstashFormatterVersion0.format (formatter.py lines 123-151). -/
def formatV0 (c : Config) (r : LogRecord) : Option String :=
  match buildV0 c r with
  | some m => serialize (.dict m)
  | none => none

/-! ### Concrete records and configurations

Concrete instances used by witnesses and counterexamples.  recStd has
exactly the attribute dictionary (and insertion order) of a Python 3
LogRecord('app', INFO, '/x.py', 10, 'hello', (), None, func='main') whose
message attribute has been rendered, with created pinned to
1700000000.0. -/

/-- A standard record without exception information. -/
def recStd : LogRecord :=
  { attrs :=
      [("name", .str "app"), ("msg", .str "hello"), ("args", .null),
       ("levelname", .str "INFO"), ("levelno", .int 20),
       ("pathname", .str "/x.py"), ("filename", .str "x.py"),
       ("module", .str "x"), ("exc_info", .null), ("exc_text", .null),
       ("stack_info", .null), ("lineno", .int 10),
       ("funcName", .str "main"), ("created", .float 1700000000),
       ("msecs", .float 0), ("relativeCreated", .float 5),
       ("thread", .int 140000), ("threadName", .str "MainThread"),
       ("processName", .str "MainProcess"), ("process", .int 4242),
       ("message", .str "hello")],
    renderedMessage := "hello",
    excText := "" }

/-- The same record with an exception triple attached. -/
def recExc : LogRecord :=
  { attrs :=
      [("name", .str "app"), ("msg", .str "hello"), ("args", .null),
       ("levelname", .str "INFO"), ("levelno", .int 20),
       ("pathname", .str "/x.py"), ("filename", .str "x.py"),
       ("module", .str "x"), ("exc_info", .obj "(exc type, exc value, traceback)"),
       ("exc_text", .null),
       ("stack_info", .null), ("lineno", .int 10),
       ("funcName", .str "main"), ("created", .float 1700000000),
       ("msecs", .float 0), ("relativeCreated", .float 5),
       ("thread", .int 140000), ("threadName", .str "MainThread"),
       ("processName", .str "MainProcess"), ("process", .int 4242),
       ("message", .str "hello")],
    renderedMessage := "hello",
    excText := "Traceback (most recent call last): ValueError: boom" }

/-- recExc with funcName = None, as produced by a LogRecord constructed
with func=None (the default of logging.LogRecord.__init__). -/
def recFuncNone : LogRecord :=
  { attrs :=
      [("name", .str "app"), ("msg", .str "hello"), ("args", .null),
       ("levelname", .str "INFO"), ("levelno", .int 20),
       ("pathname", .str "/x.py"), ("filename", .str "x.py"),
       ("module", .str "x"), ("exc_info", .obj "(exc type, exc value, traceback)"),
       ("exc_text", .null),
       ("stack_info", .null), ("lineno", .int 10),
       ("funcName", .null), ("created", .float 1700000000),
       ("msecs", .float 0), ("relativeCreated", .float 5),
       ("thread", .int 140000), ("threadName", .str "MainThread"),
       ("processName", .str "MainProcess"), ("process", .int 4242),
       ("message", .str "hello")],
    renderedMessage := "hello",
    excText := "Traceback (most recent call last): ValueError: boom" }

/-- recStd extended with a caller-supplied attribute payload whose value
is a list holding an instance of a non-serializable class (logger.info
with extra=dict(payload=[object()])). -/
def recPayload : LogRecord :=
  { attrs :=
      [("name", .str "app"), ("msg", .str "hello"), ("args", .null),
       ("levelname", .str "INFO"), ("levelno", .int 20),
       ("pathname", .str "/x.py"), ("filename", .str "x.py"),
       ("module", .str "x"), ("exc_info", .null), ("exc_text", .null),
       ("stack_info", .null), ("lineno", .int 10),
       ("funcName", .str "main"), ("created", .float 1700000000),
       ("msecs", .float 0), ("relativeCreated", .float 5),
       ("thread", .int 140000), ("threadName", .str "MainThread"),
       ("processName", .str "MainProcess"), ("process", .int 4242),
       ("payload", .list [.obj "<object object at 0x7f0000000000>"]),
       ("message", .str "hello")],
    renderedMessage := "hello",
    excText := "" }

/-- recStd with a creation time whose UTC year is 10000 (epoch seconds
253402300800.0), on which datetime.utcfromtimestamp raises. -/
def recFarFuture : LogRecord :=
  { attrs :=
      [("name", .str "app"), ("msg", .str "hello"), ("args", .null),
       ("levelname", .str "INFO"), ("levelno", .int 20),
       ("pathname", .str "/x.py"), ("filename", .str "x.py"),
       ("module", .str "x"), ("exc_info", .null), ("exc_text", .null),
       ("stack_info", .null), ("lineno", .int 10),
       ("funcName", .str "main"), ("created", .float 253402300800),
       ("msecs", .float 0), ("relativeCreated", .float 5),
       ("thread", .int 140000), ("threadName", .str "MainThread"),
       ("processName", .str "MainProcess"), ("process", .int 4242),
       ("message", .str "hello")],
    renderedMessage := "hello",
    excText := "" }

/-- Default configuration: LogstashFormatterVersion1('Logstash') with
host resolved to h1. -/
def cfgDefault : Config := mkConfig "Logstash" none "h1" none none

/-- log_attrs = [('levelno', 'lineno')]: a source attribute other than
lineno mapped to destination name lineno. -/
def cfgDestLinenoFromLevelno : Config :=
  mkConfig "Logstash" none "h1" (some [.pair "levelno" "lineno"]) none

/-- log_attrs = [('pathname', 'lineno')]: destination name lineno, source
attribute pathname. -/
def cfgDestLinenoFromPathname : Config :=
  mkConfig "Logstash" none "h1" (some [.pair "pathname" "lineno"]) none

/-- log_attrs = ['payload']: extract the caller-supplied payload
attribute. -/
def cfgPayload : Config :=
  mkConfig "Logstash" none "h1" (some [.name "payload"]) none

/-- log_attrs = ['lineno']: the lineno attribute itself is a source name
(and its own destination). -/
def cfgSrcLineno : Config :=
  mkConfig "Logstash" none "h1" (some [.name "lineno"]) none

/-- The mapping LogstashFormatterVersion1.format holds after the log-field
and extra-field merges, before a debug merge. -/
def preDebugV1 (c : Config) (r : LogRecord) (ts : String) :
    List (String × PyValue) :=
  let message := dictUpdate (baseV1 c ts) (get_log_fields c.log_attrs r)
  if extraActive c then dictUpdate message (extraList c) else message

/-- Lexicographic order on character lists, by Unicode code point. -/
def charLexLe : List Char → List Char → Bool
  | [], _ => true
  | _ :: _, [] => false
  | a :: as, b :: bs =>
      if a.toNat < b.toNat then true
      else if b.toNat < a.toNat then false
      else charLexLe as bs

/-- Lexicographic order on strings (code-point order on the character
sequences). -/
def strLe (s t : String) : Bool := charLexLe s.data t.data

/-- The shape YYYY-MM-DDTHH:MM:SS.mmmZ: exactly 24 characters, digits in
the numeric positions, the fixed separators in between. -/
def isTimestampShape (s : String) : Bool :=
  match s.data with
  | [y1, y2, y3, y4, a1, m1, m2, a2, d1, d2, t1, h1, h2, c1, n1, n2, c2,
     e1, e2, dot, x1, x2, x3, z1] =>
      y1.isDigit && y2.isDigit && y3.isDigit && y4.isDigit && a1 == '-' &&
      m1.isDigit && m2.isDigit && a2 == '-' && d1.isDigit && d2.isDigit &&
      t1 == 'T' && h1.isDigit && h2.isDigit && c1 == ':' && n1.isDigit &&
      n2.isDigit && c2 == ':' && e1.isDigit && e2.isDigit && dot == '.' &&
      x1.isDigit && x2.isDigit && x3.isDigit && z1 == 'Z'
  | _ => false

/-- Modelled from the spec (section 4.5): the timestamp the specification
describes, with sub-millisecond precision truncated (not rounded): the
total whole milliseconds of the epoch value are taken by floor, split
into seconds and a millisecond remainder, and rendered in the same
YYYY-MM-DDTHH:MM:SS.mmmZ layout.  Used only to compare the code's
behaviour against the spec's words. -/
def specTruncatedTimestamp (q : Rat) : Option String :=
  let msTotal : Int := (q.num * 1000) / (q.den : Int)
  let secs : Int := msTotal / 1000
  let ms : Nat := (msTotal % 1000).toNat
  let days : Int := secs / 86400
  let sod : Nat := (secs % 86400).toNat
  let z : Int := days + 719468
  if z < 0 then none
  else
    let ymd := civilFromDays z.toNat
    if ymd.1 < 1 ∨ 9999 < ymd.1 then none
    else some (String.mk (timestampChars
      (ymd.1, ymd.2.1, ymd.2.2, sod / 3600, sod % 3600 / 60, sod % 60,
       ms * 1000)))

/-- The total whole-microsecond count the conversion assigns to an epoch
value: truncated seconds times one million plus the rounded fractional
microseconds (before the carry normalisation).  Used in proofs as the
single monotone quantity behind utcTimestampParts. -/
def totalMicros (q : Rat) : Int := ratTrunc q * 1000000 + usRound q

/-! ### Association-list lemmas: Python dict semantics -/

theorem alookup_append (d e : List (String × PyValue)) (k : String) :
    alookup k (d ++ e) =
      match alookup k d with
      | some v => some v
      | none => alookup k e := by
  induction d with
  | nil => rfl
  | cons kv rest ih =>
      by_cases h : kv.1 = k
      · simp [alookup, h]
      · simp [alookup, h, ih]

theorem alookup_none_of_not_any (d : List (String × PyValue)) (k : String)
    (h : d.any (fun kv => decide (kv.1 = k)) = false) : alookup k d = none := by
  induction d with
  | nil => rfl
  | cons kv rest ih =>
      simp only [List.any_cons, Bool.or_eq_false_iff, decide_eq_false_iff_not] at h
      simp [alookup, h.1, ih h.2]

theorem alookup_map_ne (d : List (String × PyValue)) (k : String) (v : PyValue)
    (k' : String) (h : k' ≠ k) :
    alookup k' (d.map (fun kv => if kv.1 = k then (k, v) else kv)) =
      alookup k' d := by
  induction d with
  | nil => rfl
  | cons kv rest ih =>
      by_cases hk : kv.1 = k
      · have h1 : ¬ (k = k') := fun e => h e.symm
        have h2 : ¬ (kv.1 = k') := by rw [hk]; exact h1
        simp [alookup, hk, h1, h2, ih]
      · simp only [List.map_cons, if_neg hk]
        by_cases h2 : kv.1 = k'
        · simp [alookup, h2]
        · simp [alookup, h2, ih]

theorem alookup_map_self (d : List (String × PyValue)) (k : String) (v : PyValue)
    (h : d.any (fun kv => decide (kv.1 = k)) = true) :
    alookup k (d.map (fun kv => if kv.1 = k then (k, v) else kv)) = some v := by
  induction d with
  | nil => simp [List.any_nil] at h
  | cons kv rest ih =>
      by_cases hk : kv.1 = k
      · simp [alookup, hk]
      · simp only [List.any_cons, Bool.or_eq_true_iff, decide_eq_true_eq] at h
        rcases h with h | h
        · exact absurd h hk
        · simp [alookup, hk, ih h]

theorem alookup_updateOne (d : List (String × PyValue)) (k : String) (v : PyValue)
    (k' : String) :
    alookup k' (updateOne d k v) = if k' = k then some v else alookup k' d := by
  unfold updateOne
  by_cases hany : d.any (fun kv => decide (kv.1 = k)) = true
  · rw [if_pos hany]
    by_cases hk : k' = k
    · subst hk; rw [if_pos rfl]; exact alookup_map_self d k' v hany
    · rw [if_neg hk]; exact alookup_map_ne d k v k' hk
  · rw [if_neg hany]
    rw [alookup_append]
    rw [Bool.not_eq_true] at hany
    by_cases hk : k' = k
    · subst hk
      rw [alookup_none_of_not_any d k' hany]
      simp [alookup]
    · rw [if_neg hk]
      cases hd : alookup k' d with
      | some w => rfl
      | none =>
          have h1 : ¬ (k = k') := fun e => hk e.symm
          simp [alookup, h1]

theorem alookup_none_of_not_mem_keys (d : List (String × PyValue)) (k : String)
    (h : k ∉ d.map (fun kv => kv.1)) : alookup k d = none := by
  induction d with
  | nil => rfl
  | cons kv rest ih =>
      simp only [List.map_cons, List.mem_cons, not_or] at h
      have h1 : ¬ (kv.1 = k) := fun e => h.1 e.symm
      simp [alookup, h1, ih h.2]

/-- Updating with a dict u (each key once) makes lookups read u first and
fall back to the original dict. -/
theorem alookup_dictUpdate (d u : List (String × PyValue)) (k : String)
    (hu : NodupKeys u) :
    alookup k (dictUpdate d u) =
      match alookup k u with
      | some v => some v
      | none => alookup k d := by
  induction u generalizing d with
  | nil => rfl
  | cons kv rest ih =>
      have hu' : NodupKeys rest := by
        unfold NodupKeys at hu ⊢
        exact (List.nodup_cons.mp hu).2
      have hk1 : kv.1 ∉ rest.map (fun p => p.1) := by
        unfold NodupKeys at hu
        exact (List.nodup_cons.mp hu).1
      show alookup k (dictUpdate (updateOne d kv.1 kv.2) rest) = _
      rw [ih (updateOne d kv.1 kv.2) hu']
      by_cases hk : k = kv.1
      · subst hk
        rw [alookup_none_of_not_mem_keys rest kv.1 hk1]
        rw [alookup_updateOne d kv.1 kv.2 kv.1, if_pos rfl]
        simp [alookup]
      · rw [alookup_updateOne d kv.1 kv.2 k, if_neg hk]
        have h1 : ¬ (kv.1 = k) := fun e => hk e.symm
        cases hr : alookup k rest with
        | some w => simp [alookup, h1, hr]
        | none => simp [alookup, h1, hr]

theorem nodupKeys_updateOne (d : List (String × PyValue)) (k : String)
    (v : PyValue) (h : NodupKeys d) : NodupKeys (updateOne d k v) := by
  unfold updateOne
  by_cases hany : d.any (fun kv => decide (kv.1 = k)) = true
  · rw [if_pos hany]
    unfold NodupKeys at h ⊢
    have : (d.map (fun kv => if kv.1 = k then (k, v) else kv)).map
        (fun kv => kv.1) = d.map (fun kv => kv.1) := by
      rw [List.map_map]
      apply List.map_congr_left
      intro kv _
      by_cases hk : kv.1 = k
      · simp [hk]
      · simp [hk]
    rw [this]
    exact h
  · rw [if_neg hany]
    unfold NodupKeys at h ⊢
    rw [List.map_append]
    simp only [List.map_cons, List.map_nil]
    rw [List.nodup_append]
    refine ⟨h, List.nodup_singleton k, ?_⟩
    intro a ha
    simp only [List.mem_singleton]
    intro e
    subst e
    rw [Bool.not_eq_true] at hany
    obtain ⟨kv, hkv, he⟩ := List.mem_map.mp ha
    have := List.any_eq_false.mp hany kv hkv
    simp only [decide_eq_true_eq] at this
    exact this he

theorem nodupKeys_dictUpdate (d u : List (String × PyValue))
    (h : NodupKeys d) : NodupKeys (dictUpdate d u) := by
  induction u generalizing d with
  | nil => exact h
  | cons kv rest ih =>
      exact ih (updateOne d kv.1 kv.2) (nodupKeys_updateOne d kv.1 kv.2 h)

theorem nodupKeys_get_log_fields (spec : List (String × String))
    (r : LogRecord) : NodupKeys (get_log_fields spec r) := by
  unfold get_log_fields
  generalize r.attrs = l
  have h0 : NodupKeys ([] : List (String × PyValue)) := List.nodup_nil
  generalize hacc : ([] : List (String × PyValue)) = acc at h0 ⊢
  clear hacc
  induction l generalizing acc with
  | nil => exact h0
  | cons kv rest ih =>
      simp only [List.foldl_cons]
      cases destFor spec kv.1 with
      | some dest => exact ih _ (nodupKeys_updateOne acc dest (coerceValue kv.2) h0)
      | none => exact ih _ h0

theorem nodupKeys_filter (d : List (String × PyValue))
    (p : String × PyValue → Bool) (h : NodupKeys d) :
    NodupKeys (d.filter p) := by
  unfold NodupKeys at h ⊢
  exact List.Nodup.sublist (List.Sublist.map _ (List.filter_sublist d)) h

theorem nodupKeys_debugFieldsRaw (r : LogRecord) :
    NodupKeys (debugFieldsRaw r) := by
  unfold debugFieldsRaw
  dsimp only
  have h0 : NodupKeys
      [("stack_trace", PyValue.str (format_exception r)),
       ("lineno", getattrD r "lineno"),
       ("process", getattrD r "process"),
       ("thread_name", getattrD r "threadName")] := by
    unfold NodupKeys
    simp
  by_cases hf : pyTruthy (getattrOr r "funcName" .null) = true
  · rw [if_pos hf]
    by_cases hp : pyTruthy (getattrOr r "processName" .null) = true
    · rw [if_pos hp]; exact h0
    · rw [if_neg hp]; exact nodupKeys_updateOne _ _ _ h0
  · rw [if_neg hf]
    by_cases hp : pyTruthy (getattrOr r "processName" .null) = true
    · rw [if_pos hp]; exact nodupKeys_updateOne _ _ _ h0
    · rw [if_neg hp]
      exact nodupKeys_updateOne _ _ _ (nodupKeys_updateOne _ _ _ h0)

theorem nodupKeys_get_debug_fields (spec : List (String × String))
    (r : LogRecord) : NodupKeys (get_debug_fields spec r) := by
  unfold get_debug_fields
  exact nodupKeys_filter _ _ (nodupKeys_debugFieldsRaw r)

theorem mem_updateOne (d : List (String × PyValue)) (k : String) (v : PyValue)
    (kv : String × PyValue) (h : kv ∈ updateOne d k v) :
    kv ∈ d ∨ kv = (k, v) := by
  unfold updateOne at h
  by_cases hany : d.any (fun p => decide (p.1 = k)) = true
  · rw [if_pos hany] at h
    obtain ⟨p, hp, he⟩ := List.mem_map.mp h
    by_cases hk : p.1 = k
    · right; rw [if_pos hk] at he; exact he.symm
    · left; rw [if_neg hk] at he; exact he ▸ hp
  · rw [if_neg hany] at h
    rcases List.mem_append.mp h with h | h
    · exact Or.inl h
    · exact Or.inr (List.mem_singleton.mp h)

theorem mem_dictUpdate (d u : List (String × PyValue)) (kv : String × PyValue)
    (h : kv ∈ dictUpdate d u) : kv ∈ d ∨ kv ∈ u := by
  induction u generalizing d with
  | nil => exact Or.inl h
  | cons p rest ih =>
      have h1 : kv ∈ dictUpdate (updateOne d p.1 p.2) rest := h
      rcases ih (updateOne d p.1 p.2) h1 with h2 | h2
      · rcases mem_updateOne d p.1 p.2 kv h2 with h3 | h3
        · exact Or.inl h3
        · right
          rw [h3]
          exact List.mem_cons_self _ _
      · exact Or.inr (List.mem_cons_of_mem _ h2)

/-- Provenance of extracted fields: every pair of the get_log_fields
result stores, under the translated name of some record attribute in
log_keys, the coerced value of that attribute. -/
theorem mem_get_log_fields (spec : List (String × String)) (r : LogRecord)
    (kv : String × PyValue) (h : kv ∈ get_log_fields spec r) :
    ∃ s raw, (s, raw) ∈ r.attrs ∧ destFor spec s = some kv.1 ∧
      kv.2 = coerceValue raw := by
  unfold get_log_fields at h
  suffices H : ∀ (l : List (String × PyValue)) (acc : List (String × PyValue)),
      (∀ p ∈ acc, ∃ s raw, (s, raw) ∈ r.attrs ∧ destFor spec s = some p.1 ∧
        p.2 = coerceValue raw) →
      (∀ p ∈ l, p ∈ r.attrs) →
      ∀ p ∈ l.foldl
        (fun fields kv =>
          match destFor spec kv.1 with
          | some dest => updateOne fields dest (coerceValue kv.2)
          | none => fields) acc,
      ∃ s raw, (s, raw) ∈ r.attrs ∧ destFor spec s = some p.1 ∧
        p.2 = coerceValue raw by
    exact H r.attrs [] (by intro p hp; cases hp) (fun p hp => hp) kv h
  intro l
  induction l with
  | nil => intro acc hacc _ p hp; exact hacc p hp
  | cons a rest ih =>
      intro acc hacc hl p hp
      simp only [List.foldl_cons] at hp
      cases hd : destFor spec a.1 with
      | none =>
          rw [hd] at hp
          exact ih acc hacc (fun q hq => hl q (List.mem_cons_of_mem _ hq)) p hp
      | some dest =>
          rw [hd] at hp
          refine ih (updateOne acc dest (coerceValue a.2)) ?_
            (fun q hq => hl q (List.mem_cons_of_mem _ hq)) p hp
          intro q hq
          rcases mem_updateOne acc dest (coerceValue a.2) q hq with h2 | h2
          · exact hacc q h2
          · refine ⟨a.1, a.2, ?_, ?_, ?_⟩
            · exact hl (a.1, a.2) (by simp)
            · rw [h2, hd]
            · rw [h2]

theorem alookup_filter_none (d : List (String × PyValue))
    (p : String × PyValue → Bool) (k : String)
    (h : ∀ kv : String × PyValue, kv.1 = k → p kv = false) :
    alookup k (d.filter p) = none := by
  induction d with
  | nil => rfl
  | cons kv rest ih =>
      by_cases hp : p kv = true
      · rw [List.filter_cons_of_pos hp]
        have hk : ¬ (kv.1 = k) := fun e => by rw [h kv e] at hp; cases hp
        simp [alookup, hk, ih]
      · rw [List.filter_cons_of_neg (by simpa using hp)]
        exact ih

theorem alookup_filter_keep (d : List (String × PyValue))
    (p : String × PyValue → Bool) (k : String)
    (h : ∀ kv : String × PyValue, kv.1 = k → p kv = true) :
    alookup k (d.filter p) = alookup k d := by
  induction d with
  | nil => rfl
  | cons kv rest ih =>
      by_cases hk : kv.1 = k
      · rw [List.filter_cons_of_pos (h kv hk)]
        simp [alookup, hk]
      · by_cases hp : p kv = true
        · rw [List.filter_cons_of_pos hp]
          simp [alookup, hk, ih]
        · rw [List.filter_cons_of_neg (by simpa using hp)]
          simp [alookup, hk, ih]

/-- The duplicate removal of get_debug_fields (formatter.py lines 91-95)
deletes exactly the keys that occur among the spec's source attribute
names. -/
theorem alookup_debug_source_mem (spec : List (String × String))
    (r : LogRecord) (k : String) (h : k ∈ spec.map (fun p => p.1)) :
    alookup k (get_debug_fields spec r) = none := by
  unfold get_debug_fields
  apply alookup_filter_none
  intro kv hk
  rw [hk]
  have hc : (spec.map (fun p => p.1)).contains k = true :=
    List.elem_eq_true_of_mem h
  rw [hc]
  rfl

theorem alookup_debug_source_not_mem (spec : List (String × String))
    (r : LogRecord) (k : String) (h : k ∉ spec.map (fun p => p.1)) :
    alookup k (get_debug_fields spec r) = alookup k (debugFieldsRaw r) := by
  unfold get_debug_fields
  apply alookup_filter_keep
  intro kv hk
  rw [hk]
  have hc : (spec.map (fun p => p.1)).contains k = false := by
    rw [Bool.eq_false_iff]
    intro hb
    exact h (List.mem_of_elem_eq_true hb)
  rw [hc]
  rfl

theorem alookup_funcName_debugFieldsRaw (r : LogRecord) :
    alookup "funcName" (debugFieldsRaw r) =
      if pyTruthy (getattrOr r "funcName" PyValue.null) then none
      else some (getattrD r "funcName") := by
  unfold debugFieldsRaw
  dsimp only
  have hbase : alookup "funcName"
      [("stack_trace", PyValue.str (format_exception r)),
       ("lineno", getattrD r "lineno"),
       ("process", getattrD r "process"),
       ("thread_name", getattrD r "threadName")] = none := rfl
  by_cases hf : pyTruthy (getattrOr r "funcName" PyValue.null) = true
  · rw [if_pos hf, if_pos hf]
    by_cases hp : pyTruthy (getattrOr r "processName" PyValue.null) = true
    · rw [if_pos hp]; exact hbase
    · rw [if_neg hp, alookup_updateOne, if_neg (by decide)]; exact hbase
  · rw [if_neg hf, if_neg hf]
    by_cases hp : pyTruthy (getattrOr r "processName" PyValue.null) = true
    · rw [if_pos hp, alookup_updateOne, if_pos rfl]
    · rw [if_neg hp, alookup_updateOne, if_neg (by decide),
        alookup_updateOne, if_pos rfl]

theorem alookup_processName_debugFieldsRaw (r : LogRecord) :
    alookup "processName" (debugFieldsRaw r) =
      if pyTruthy (getattrOr r "processName" PyValue.null) then none
      else some (getattrD r "processName") := by
  unfold debugFieldsRaw
  dsimp only
  have hbase : alookup "processName"
      [("stack_trace", PyValue.str (format_exception r)),
       ("lineno", getattrD r "lineno"),
       ("process", getattrD r "process"),
       ("thread_name", getattrD r "threadName")] = none := rfl
  by_cases hp : pyTruthy (getattrOr r "processName" PyValue.null) = true
  · rw [if_pos hp, if_pos hp]
    by_cases hf : pyTruthy (getattrOr r "funcName" PyValue.null) = true
    · rw [if_pos hf]; exact hbase
    · rw [if_neg hf, alookup_updateOne, if_neg (by decide)]; exact hbase
  · rw [if_neg hp, if_neg hp, alookup_updateOne, if_pos rfl]

/-! ### Claims C10, C9, C2, C1, C7 -/

/-- Claim C10 (confirmed): constructing a formatter with log_attrs equal
to the empty list yields exactly the attribute mapping spec of passing no
log_attrs at all, namely the default message→message, pathname→path,
levelname→level, name→logger_name; an empty allow-list cannot be
configured through the constructor. -/
theorem c10_empty_log_attrs_is_default (mt : String)
    (tags : Option (List String)) (host : String)
    (ex : Option (List (String × PyValue))) :
    (mkConfig mt tags host (some []) ex).log_attrs =
      (mkConfig mt tags host none ex).log_attrs ∧
    (mkConfig mt tags host (some []) ex).log_attrs =
      [("message", "message"), ("pathname", "path"),
       ("levelname", "level"), ("name", "logger_name")] :=
  ⟨rfl, rfl⟩

/-- Claim C9 (confirmed): two formatters constructed from identical
configuration parameters and the same resolved host produce byte-identical
output (equal serialized strings, hence equal UTF-8 bytes) on any one
record, for both schema versions: format is a deterministic function of
record, configuration and host. -/
theorem c9_format_deterministic (c1 c2 : Config) (mt : String)
    (tags : Option (List String)) (host : String)
    (la : Option (List LogAttr)) (ex : Option (List (String × PyValue)))
    (r : LogRecord)
    (h1 : c1 = mkConfig mt tags host la ex)
    (h2 : c2 = mkConfig mt tags host la ex) :
    formatV1 c1 r = formatV1 c2 r ∧ formatV0 c1 r = formatV0 c2 r := by
  subst h1
  subst h2
  exact ⟨rfl, rfl⟩

/-- Witness for C9 at a concrete configuration and record. -/
theorem c9_format_deterministic_witness :
    formatV1 (mkConfig "Logstash" none "h1" none none) recStd =
      formatV1 (mkConfig "Logstash" none "h1" none none) recStd ∧
    formatV0 (mkConfig "Logstash" none "h1" none none) recStd =
      formatV0 (mkConfig "Logstash" none "h1" none none) recStd :=
  c9_format_deterministic _ _ "Logstash" none "h1" none none recStd rfl rfl

/-- Claim C2 (counterexample): with log_attrs = [('pathname', 'lineno')]
the destination name lineno is used by the spec, yet the debug mapping
returned by get_debug_fields still contains the key lineno (the removal
compares against source names, not destination names), so a key equal to
a destination field name is not removed. -/
theorem c2_counterexample :
    "lineno" ∈ cfgDestLinenoFromPathname.log_attrs.map (fun p => p.2) ∧
    alookup "lineno"
      (get_debug_fields cfgDestLinenoFromPathname.log_attrs recExc) =
      some (.int 10) :=
  ⟨by decide, rfl⟩

/-- Claim C2 (amended, corrected): the post-processing rule of
get_debug_fields removes from the debug mapping exactly the keys that
collide with a SOURCE attribute name of the attribute mapping spec (not
with a destination name): every such key is absent from the returned
mapping. -/
theorem c2_debug_drops_source_name_collisions
    (spec : List (String × String)) (r : LogRecord) (k : String)
    (h : k ∈ spec.map (fun p => p.1)) :
    alookup k (get_debug_fields spec r) = none :=
  alookup_debug_source_mem spec r k h

/-- Witness for the amended C2: the key lineno is removed when lineno is
a source attribute name. -/
theorem c2_debug_drops_source_name_collisions_witness :
    alookup "lineno" (get_debug_fields [("lineno", "line")] recExc) = none :=
  c2_debug_drops_source_name_collisions [("lineno", "line")] recExc "lineno"
    (by decide)

/-- Claim C1 (counterexample): with log_attrs = [('levelno', 'lineno')]
(a source attribute mapped to destination name lineno) and a record with
exception information, the value under lineno in the final version-1
mapping is the record's raw line number 10, not the extracted field's
value 20: the debug merge overwrites the mapped field because the
duplicate removal checks source names only. -/
theorem c1_counterexample :
    (buildV1 cfgDestLinenoFromLevelno recExc).map (alookup "lineno") =
      some (some (.int 10)) ∧
    alookup "lineno"
      (get_log_fields cfgDestLinenoFromLevelno.log_attrs recExc) =
      some (.int 20) ∧
    getattrD recExc "lineno" = .int 10 :=
  ⟨rfl, rfl, rfl⟩

/-- Claim C1 (amended, corrected): the override protection keys on SOURCE
attribute names: when lineno occurs among the spec's source attribute
names, the debug mapping carries no lineno key, and the debug-field merge
of the version-1 format leaves the lineno entry produced by the earlier
merge stages untouched.  (When only a destination name is lineno, as in
the counterexample, the debug merge overwrites it with the record's raw
line number.) -/
theorem c1_lineno_source_override (c : Config) (r : LogRecord) (ts : String)
    (hsrc : "lineno" ∈ c.log_attrs.map (fun p => p.1)) :
    alookup "lineno" (get_debug_fields c.log_attrs r) = none ∧
    alookup "lineno" (buildV1core c r ts) =
      alookup "lineno" (preDebugV1 c r ts) := by
  have hnone := alookup_debug_source_mem c.log_attrs r "lineno" hsrc
  refine ⟨hnone, ?_⟩
  show alookup "lineno"
      (if hasExc r then
        dictUpdate (preDebugV1 c r ts) (get_debug_fields c.log_attrs r)
      else preDebugV1 c r ts) = _
  by_cases hexc : hasExc r = true
  · rw [if_pos hexc,
      alookup_dictUpdate _ _ _ (nodupKeys_get_debug_fields c.log_attrs r),
      hnone]
  · rw [if_neg hexc]

/-- Witness for the amended C1 with log_attrs = ['lineno']. -/
theorem c1_lineno_source_override_witness :
    alookup "lineno" (get_debug_fields cfgSrcLineno.log_attrs recExc) = none ∧
    alookup "lineno" (buildV1core cfgSrcLineno recExc "ts") =
      alookup "lineno" (preDebugV1 cfgSrcLineno recExc "ts") :=
  c1_lineno_source_override cfgSrcLineno recExc "ts" (by decide)

/-- Claim C7 (counterexample): a record that defines funcName (with value
None, as logging.LogRecord produces when constructed with func=None)
still receives a funcName key in the debug mapping, although the claim
says the key is absent whenever the record defines the attribute. -/
theorem c7_counterexample :
    alookup "funcName" recFuncNone.attrs = some PyValue.null ∧
    alookup "funcName" (get_debug_fields cfgDefault.log_attrs recFuncNone) =
      some PyValue.null :=
  ⟨rfl, rfl⟩

/-- Claim C7 (amended, corrected): for a record defining funcName
(respectively processName), the debug mapping contains that key exactly
when the attribute's value is falsy (None or empty) and the name is not
removed as a spec source-name duplicate; in particular a truthy funcName
or processName never yields the key, but a defined-yet-falsy one does. -/
theorem c7_funcName_processName_presence (spec : List (String × String))
    (r : LogRecord) (fv pv : PyValue)
    (hf : alookup "funcName" r.attrs = some fv)
    (hp : alookup "processName" r.attrs = some pv) :
    alookup "funcName" (get_debug_fields spec r) =
      (if pyTruthy fv = false ∧ "funcName" ∉ spec.map (fun p => p.1)
       then some fv else none) ∧
    alookup "processName" (get_debug_fields spec r) =
      (if pyTruthy pv = false ∧ "processName" ∉ spec.map (fun p => p.1)
       then some pv else none) := by
  have hfv1 : getattrOr r "funcName" PyValue.null = fv := by
    unfold getattrOr
    rw [hf]
    rfl
  have hfv2 : getattrD r "funcName" = fv := by
    unfold getattrD
    rw [hf]
    rfl
  have hpv1 : getattrOr r "processName" PyValue.null = pv := by
    unfold getattrOr
    rw [hp]
    rfl
  have hpv2 : getattrD r "processName" = pv := by
    unfold getattrD
    rw [hp]
    rfl
  constructor
  · by_cases hmem : "funcName" ∈ spec.map (fun p => p.1)
    · rw [alookup_debug_source_mem spec r _ hmem]
      rw [if_neg]
      intro hcond
      exact hcond.2 hmem
    · rw [alookup_debug_source_not_mem spec r _ hmem,
        alookup_funcName_debugFieldsRaw, hfv1, hfv2]
      by_cases ht : pyTruthy fv = true
      · rw [if_pos ht, if_neg]
        intro hcond
        rw [hcond.1] at ht
        cases ht
      · rw [if_neg ht, if_pos ⟨Bool.not_eq_true _ ▸ ht, hmem⟩]
  · by_cases hmem : "processName" ∈ spec.map (fun p => p.1)
    · rw [alookup_debug_source_mem spec r _ hmem]
      rw [if_neg]
      intro hcond
      exact hcond.2 hmem
    · rw [alookup_debug_source_not_mem spec r _ hmem,
        alookup_processName_debugFieldsRaw, hpv1, hpv2]
      by_cases ht : pyTruthy pv = true
      · rw [if_pos ht, if_neg]
        intro hcond
        rw [hcond.1] at ht
        cases ht
      · rw [if_neg ht, if_pos ⟨Bool.not_eq_true _ ▸ ht, hmem⟩]

/-- Witness for the amended C7: on a record with truthy funcName and
processName both keys are absent from the debug mapping. -/
theorem c7_funcName_processName_presence_witness :
    alookup "funcName" (get_debug_fields cfgDefault.log_attrs recExc) = none ∧
    alookup "processName" (get_debug_fields cfgDefault.log_attrs recExc) =
      none := by
  have h := c7_funcName_processName_presence cfgDefault.log_attrs recExc
    (.str "main") (.str "MainProcess") rfl rfl
  simpa [pyTruthy] using h

/-! ### Claims C4 and C8 -/

theorem alookup_mem (d : List (String × PyValue)) (k : String) (v : PyValue)
    (h : alookup k d = some v) : (k, v) ∈ d := by
  induction d with
  | nil => cases h
  | cons kv rest ih =>
      unfold alookup at h
      by_cases hk : kv.1 = k
      · rw [if_pos hk] at h
        have hv : kv.2 = v := Option.some.inj h
        have : (k, v) = kv := by
          rw [← hk, ← hv]
        rw [this]
        exact List.mem_cons_self _ _
      · rw [if_neg hk] at h
        exact List.mem_cons_of_mem _ (ih h)

/-- Claim C4 (confirmed): every value the extraction stores was read from
a record attribute selected by the spec; a value of a safe (easy) type is
copied unchanged, a value of any other type is replaced by its repr()
string. -/
theorem c4_extraction_coercion (spec : List (String × String))
    (r : LogRecord) (d : String) (v : PyValue)
    (h : alookup d (get_log_fields spec r) = some v) :
    ∃ s raw, (s, raw) ∈ r.attrs ∧ destFor spec s = some d ∧
      ((easyType raw = true ∧ v = raw) ∨
       (easyType raw = false ∧ v = .str (pyRepr raw))) := by
  obtain ⟨s, raw, h1, h2, h3⟩ :=
    mem_get_log_fields spec r (d, v) (alookup_mem _ _ _ h)
  have h3v : v = coerceValue raw := h3
  refine ⟨s, raw, h1, h2, ?_⟩
  by_cases he : easyType raw = true
  · left
    refine ⟨he, ?_⟩
    rw [h3v]
    unfold coerceValue
    rw [if_pos he]
  · right
    refine ⟨Bool.not_eq_true _ ▸ he, ?_⟩
    rw [h3v]
    unfold coerceValue
    rw [if_neg he]

/-- Witness for C4: extracting exc_info (a tuple, not an easy type) from
a record stores its repr string. -/
theorem c4_extraction_coercion_witness :
    ∃ s raw, (s, raw) ∈ recExc.attrs ∧
      destFor [("exc_info", "exc_info")] s = some "exc_info" ∧
      ((easyType raw = true ∧
          PyValue.str "(exc type, exc value, traceback)" = raw) ∨
       (easyType raw = false ∧
          PyValue.str "(exc type, exc value, traceback)" =
            .str (pyRepr raw))) :=
  c4_extraction_coercion [("exc_info", "exc_info")] recExc "exc_info"
    (.str "(exc type, exc value, traceback)") rfl

/-- One merge stage: a conditional dict.update, read through a lookup. -/
theorem alookup_stage (m u : List (String × PyValue)) (b : Bool) (k : String)
    (hu : NodupKeys u) :
    alookup k (if b then dictUpdate m u else m) =
      match (if b then alookup k u else none) with
      | some v => some v
      | none => alookup k m := by
  cases b with
  | false => rfl
  | true =>
      simp only [if_pos]
      exact alookup_dictUpdate m u k hu

/-- Claim C8 (confirmed): both format versions merge, in order, the
extracted fields, then the static extra-fields configuration (when
truthy), then - only when an exception is attached - the debug fields;
a key written by a later stage shadows every earlier stage, the base
mapping being read only when no stage wrote the key.  The first equation
is the version-1 top-level mapping, the second the version-0 @fields
sub-mapping. -/
theorem c8_merge_order (c : Config) (r : LogRecord) (ts : String) (k : String)
    (hex : NodupKeys (extraList c)) :
    (alookup k (buildV1core c r ts) =
      match (if hasExc r then alookup k (get_debug_fields c.log_attrs r)
             else none) with
      | some v => some v
      | none =>
        match (if extraActive c then alookup k (extraList c) else none) with
        | some v => some v
        | none =>
          match alookup k (get_log_fields c.log_attrs r) with
          | some v => some v
          | none => alookup k (baseV1 c ts)) ∧
    (alookup k (buildV0fields c r) =
      match (if hasExc r then alookup k (get_debug_fields c.log_attrs r)
             else none) with
      | some v => some v
      | none =>
        match (if extraActive c then alookup k (extraList c) else none) with
        | some v => some v
        | none =>
          match alookup k (get_log_fields c.log_attrs r) with
          | some v => some v
          | none => alookup k (baseV0fields r)) := by
  constructor
  · show alookup k
      (if hasExc r then
        dictUpdate
          (if extraActive c then
            dictUpdate (dictUpdate (baseV1 c ts) (get_log_fields c.log_attrs r))
              (extraList c)
          else dictUpdate (baseV1 c ts) (get_log_fields c.log_attrs r))
          (get_debug_fields c.log_attrs r)
      else
        (if extraActive c then
          dictUpdate (dictUpdate (baseV1 c ts) (get_log_fields c.log_attrs r))
            (extraList c)
        else dictUpdate (baseV1 c ts) (get_log_fields c.log_attrs r))) = _
    rw [alookup_stage _ _ _ _ (nodupKeys_get_debug_fields c.log_attrs r)]
    rw [alookup_stage _ _ _ _ hex]
    rw [alookup_dictUpdate _ _ _ (nodupKeys_get_log_fields c.log_attrs r)]
  · show alookup k
      (if hasExc r then
        dictUpdate
          (if extraActive c then
            dictUpdate (dictUpdate (baseV0fields r) (get_log_fields c.log_attrs r))
              (extraList c)
          else dictUpdate (baseV0fields r) (get_log_fields c.log_attrs r))
          (get_debug_fields c.log_attrs r)
      else
        (if extraActive c then
          dictUpdate (dictUpdate (baseV0fields r) (get_log_fields c.log_attrs r))
            (extraList c)
        else dictUpdate (baseV0fields r) (get_log_fields c.log_attrs r))) = _
    rw [alookup_stage _ _ _ _ (nodupKeys_get_debug_fields c.log_attrs r)]
    rw [alookup_stage _ _ _ _ hex]
    rw [alookup_dictUpdate _ _ _ (nodupKeys_get_log_fields c.log_attrs r)]

/-- Witness for C8 at a concrete configuration, record and key. -/
theorem c8_merge_order_witness :
    (alookup "lineno" (buildV1core cfgDefault recExc "ts") =
      match (if hasExc recExc then
              alookup "lineno" (get_debug_fields cfgDefault.log_attrs recExc)
             else none) with
      | some v => some v
      | none =>
        match (if extraActive cfgDefault then
                alookup "lineno" (extraList cfgDefault) else none) with
        | some v => some v
        | none =>
          match alookup "lineno"
              (get_log_fields cfgDefault.log_attrs recExc) with
          | some v => some v
          | none => alookup "lineno" (baseV1 cfgDefault "ts")) ∧
    (alookup "lineno" (buildV0fields cfgDefault recExc) =
      match (if hasExc recExc then
              alookup "lineno" (get_debug_fields cfgDefault.log_attrs recExc)
             else none) with
      | some v => some v
      | none =>
        match (if extraActive cfgDefault then
                alookup "lineno" (extraList cfgDefault) else none) with
        | some v => some v
        | none =>
          match alookup "lineno"
              (get_log_fields cfgDefault.log_attrs recExc) with
          | some v => some v
          | none => alookup "lineno" (baseV0fields recExc)) :=
  c8_merge_order cfgDefault recExc "ts" "lineno" List.nodup_nil

/-! ### Claim C3: serialization -/

mutual

theorem jsonDump_isSome : (v : PyValue) → jsonable v = true →
    (jsonDump v).isSome = true
  | .str _, _ => rfl
  | .bool true, _ => rfl
  | .bool false, _ => rfl
  | .int _, _ => rfl
  | .float _, _ => rfl
  | .null, _ => rfl
  | .list xs, h => by
      have h1 : jsonableList xs = true := h
      have h2 := jsonDumpList_isSome xs h1
      unfold jsonDump
      obtain ⟨ys, hys⟩ := Option.isSome_iff_exists.mp h2
      rw [hys]
      rfl
  | .dict xs, h => by
      have h1 : jsonableDict xs = true := h
      have h2 := jsonDumpDict_isSome xs h1
      unfold jsonDump
      obtain ⟨ys, hys⟩ := Option.isSome_iff_exists.mp h2
      rw [hys]
      rfl

theorem jsonDumpList_isSome : (xs : List PyValue) → jsonableList xs = true →
    (jsonDumpList xs).isSome = true
  | [], _ => rfl
  | v :: vs, h => by
      have hb : (jsonable v && jsonableList vs) = true := h
      have hv : jsonable v = true := (Bool.and_eq_true _ _ ▸ hb).1
      have hvs : jsonableList vs = true := (Bool.and_eq_true _ _ ▸ hb).2
      have h1 := jsonDump_isSome v hv
      have h2 := jsonDumpList_isSome vs hvs
      unfold jsonDumpList
      obtain ⟨s, hs⟩ := Option.isSome_iff_exists.mp h1
      obtain ⟨ss, hss⟩ := Option.isSome_iff_exists.mp h2
      rw [hs, hss]
      rfl

theorem jsonDumpDict_isSome :
    (xs : List (String × PyValue)) → jsonableDict xs = true →
    (jsonDumpDict xs).isSome = true
  | [], _ => rfl
  | kv :: rest, h => by
      have hb : (jsonable kv.2 && jsonableDict rest) = true := h
      have hv : jsonable kv.2 = true := (Bool.and_eq_true _ _ ▸ hb).1
      have hrest : jsonableDict rest = true := (Bool.and_eq_true _ _ ▸ hb).2
      have h1 := jsonDump_isSome kv.2 hv
      have h2 := jsonDumpDict_isSome rest hrest
      unfold jsonDumpDict
      obtain ⟨s, hs⟩ := Option.isSome_iff_exists.mp h1
      obtain ⟨ss, hss⟩ := Option.isSome_iff_exists.mp h2
      rw [hs, hss]
      rfl

end

theorem jsonableDict_of_forall (xs : List (String × PyValue))
    (h : ∀ kv ∈ xs, jsonable kv.2 = true) : jsonableDict xs = true := by
  induction xs with
  | nil => rfl
  | cons kv rest ih =>
      unfold jsonableDict
      rw [Bool.and_eq_true]
      exact ⟨h kv (List.mem_cons_self _ _),
        ih (fun p hp => h p (List.mem_cons_of_mem _ hp))⟩

theorem easyType_of_jsonable (v : PyValue) (h : jsonable v = true) :
    easyType v = true := by
  cases v with
  | obj r => cases h
  | str s => rfl
  | bool b => rfl
  | int n => rfl
  | float q => rfl
  | null => rfl
  | list xs => rfl
  | dict xs => rfl

theorem jsonable_strList (l : List String) :
    jsonableList (l.map (fun t => PyValue.str t)) = true := by
  induction l with
  | nil => rfl
  | cons t rest ih =>
      show (jsonable (PyValue.str t) &&
        jsonableList (rest.map (fun t => PyValue.str t))) = true
      rw [Bool.and_eq_true]
      exact ⟨rfl, ih⟩

theorem jsonable_getattrD (r : LogRecord) (k : String)
    (h : ∀ kv ∈ r.attrs, jsonable kv.2 = true) :
    jsonable (getattrD r k) = true := by
  unfold getattrD
  cases hl : alookup k r.attrs with
  | none => rfl
  | some v => exact h (k, v) (alookup_mem _ _ _ hl)

theorem mem_debugFieldsRaw (r : LogRecord) (kv : String × PyValue)
    (h : kv ∈ debugFieldsRaw r) :
    kv ∈ [("stack_trace", PyValue.str (format_exception r)),
          ("lineno", getattrD r "lineno"),
          ("process", getattrD r "process"),
          ("thread_name", getattrD r "threadName")] ∨
    kv = ("funcName", getattrD r "funcName") ∨
    kv = ("processName", getattrD r "processName") := by
  unfold debugFieldsRaw at h
  dsimp only at h
  by_cases hf : pyTruthy (getattrOr r "funcName" PyValue.null) = true
  · rw [if_pos hf] at h
    by_cases hp : pyTruthy (getattrOr r "processName" PyValue.null) = true
    · rw [if_pos hp] at h
      exact Or.inl h
    · rw [if_neg hp] at h
      rcases mem_updateOne _ _ _ _ h with h1 | h1
      · exact Or.inl h1
      · exact Or.inr (Or.inr h1)
  · rw [if_neg hf] at h
    by_cases hp : pyTruthy (getattrOr r "processName" PyValue.null) = true
    · rw [if_pos hp] at h
      rcases mem_updateOne _ _ _ _ h with h1 | h1
      · exact Or.inl h1
      · exact Or.inr (Or.inl h1)
    · rw [if_neg hp] at h
      rcases mem_updateOne _ _ _ _ h with h1 | h1
      · rcases mem_updateOne _ _ _ _ h1 with h2 | h2
        · exact Or.inl h2
        · exact Or.inr (Or.inl h2)
      · exact Or.inr (Or.inr h1)

theorem jsonable_values_get_debug_fields (spec : List (String × String))
    (r : LogRecord) (h : ∀ kv ∈ r.attrs, jsonable kv.2 = true)
    (kv : String × PyValue) (hkv : kv ∈ get_debug_fields spec r) :
    jsonable kv.2 = true := by
  unfold get_debug_fields at hkv
  have hraw : kv ∈ debugFieldsRaw r := List.mem_of_mem_filter hkv
  rcases mem_debugFieldsRaw r kv hraw with h1 | h1 | h1
  · simp only [List.mem_cons, List.not_mem_nil, or_false] at h1
    rcases h1 with h2 | h2 | h2 | h2
    all_goals first
      | (rw [h2]; rfl)
      | (rw [h2]; exact jsonable_getattrD r _ h)
  · rw [h1]
    exact jsonable_getattrD r _ h
  · rw [h1]
    exact jsonable_getattrD r _ h

theorem mem_stage (m u : List (String × PyValue)) (b : Bool)
    (kv : String × PyValue) (h : kv ∈ (if b then dictUpdate m u else m)) :
    kv ∈ m ∨ kv ∈ u := by
  cases b with
  | false => exact Or.inl h
  | true => exact mem_dictUpdate m u kv h

theorem jsonable_values_get_log_fields (spec : List (String × String))
    (r : LogRecord) (h : ∀ kv ∈ r.attrs, jsonable kv.2 = true)
    (kv : String × PyValue) (hkv : kv ∈ get_log_fields spec r) :
    jsonable kv.2 = true := by
  obtain ⟨s, raw, h1, _, h3⟩ := mem_get_log_fields spec r kv hkv
  have hraw : jsonable raw = true := h (s, raw) h1
  rw [h3]
  unfold coerceValue
  rw [if_pos (easyType_of_jsonable raw hraw)]
  exact hraw

theorem jsonable_values_buildV1core (c : Config) (r : LogRecord) (ts : String)
    (hattrs : ∀ kv ∈ r.attrs, jsonable kv.2 = true)
    (hextra : ∀ kv ∈ extraList c, jsonable kv.2 = true)
    (kv : String × PyValue) (h : kv ∈ buildV1core c r ts) :
    jsonable kv.2 = true := by
  have h3 : kv ∈ (if hasExc r then
      dictUpdate
        (if extraActive c then
          dictUpdate (dictUpdate (baseV1 c ts) (get_log_fields c.log_attrs r))
            (extraList c)
        else dictUpdate (baseV1 c ts) (get_log_fields c.log_attrs r))
        (get_debug_fields c.log_attrs r)
    else
      (if extraActive c then
        dictUpdate (dictUpdate (baseV1 c ts) (get_log_fields c.log_attrs r))
          (extraList c)
      else dictUpdate (baseV1 c ts) (get_log_fields c.log_attrs r))) := h
  rcases mem_stage _ _ _ _ h3 with h4 | h4
  · rcases mem_stage _ _ _ _ h4 with h5 | h5
    · rcases mem_dictUpdate _ _ _ h5 with h6 | h6
      · unfold baseV1 at h6
        simp only [List.mem_cons, List.not_mem_nil, or_false] at h6
        rcases h6 with h7 | h7 | h7 | h7 | h7
        · rw [h7]; rfl
        · rw [h7]; rfl
        · rw [h7]; rfl
        · rw [h7]; exact jsonable_strList c.tags
        · rw [h7]; rfl
      · exact jsonable_values_get_log_fields c.log_attrs r hattrs kv h6
    · exact hextra kv h5
  · exact jsonable_values_get_debug_fields c.log_attrs r hattrs kv h4

theorem jsonable_values_buildV0fields (c : Config) (r : LogRecord)
    (hattrs : ∀ kv ∈ r.attrs, jsonable kv.2 = true)
    (hextra : ∀ kv ∈ extraList c, jsonable kv.2 = true)
    (kv : String × PyValue) (h : kv ∈ buildV0fields c r) :
    jsonable kv.2 = true := by
  have h3 : kv ∈ (if hasExc r then
      dictUpdate
        (if extraActive c then
          dictUpdate
            (dictUpdate (baseV0fields r) (get_log_fields c.log_attrs r))
            (extraList c)
        else dictUpdate (baseV0fields r) (get_log_fields c.log_attrs r))
        (get_debug_fields c.log_attrs r)
    else
      (if extraActive c then
        dictUpdate (dictUpdate (baseV0fields r) (get_log_fields c.log_attrs r))
          (extraList c)
      else dictUpdate (baseV0fields r) (get_log_fields c.log_attrs r))) := h
  rcases mem_stage _ _ _ _ h3 with h4 | h4
  · rcases mem_stage _ _ _ _ h4 with h5 | h5
    · rcases mem_dictUpdate _ _ _ h5 with h6 | h6
      · unfold baseV0fields at h6
        simp only [List.mem_cons, List.not_mem_nil, or_false] at h6
        rcases h6 with h7 | h7
        · rw [h7]; exact jsonable_getattrD r _ hattrs
        · rw [h7]; exact jsonable_getattrD r _ hattrs
      · exact jsonable_values_get_log_fields c.log_attrs r hattrs kv h6
    · exact hextra kv h5
  · exact jsonable_values_get_debug_fields c.log_attrs r hattrs kv h4

/-- Claim C3 (counterexample): the claim fails with the stated
precondition.  cfgPayload has no extra_fields at all (so the
precondition on extra_fields holds), recPayload is a complete record
whose caller-supplied payload attribute is a list containing an object
of a non-serializable class: the list is an easy type, so the coercion
copies it unchanged and json.dumps raises, so format raises instead of
returning bytes.  Likewise a record whose creation time falls in year
10000 makes the timestamp conversion raise in both versions. -/
theorem c3_counterexample :
    formatV1 cfgPayload recPayload = none ∧
    formatV0 cfgPayload recPayload = none ∧
    extraList cfgPayload = [] ∧
    formatV1 cfgDefault recFarFuture = none ∧
    formatV0 cfgDefault recFarFuture = none :=
  ⟨rfl, rfl, rfl, rfl, rfl⟩

/-- Claim C3 (amended, corrected): when additionally every record
attribute value is JSON-representable (no instance of a non-serializable
class nested anywhere inside a copied container value) and the record's
creation time lies in the representable year range 1..9999, both format
versions return a byte sequence, namely the UTF-8 encoding of the JSON
text the serializer produces for the final mapping. -/
theorem c3_format_serializes (c : Config) (r : LogRecord) (ts : String)
    (hattrs : ∀ kv ∈ r.attrs, jsonable kv.2 = true)
    (hextra : ∀ kv ∈ extraList c, jsonable kv.2 = true)
    (hts : format_timestamp (createdQ r) = some ts) :
    (∃ s, formatV1 c r = some s) ∧ (∃ s, formatV0 c r = some s) := by
  constructor
  · have hjson : jsonableDict (buildV1core c r ts) = true :=
      jsonableDict_of_forall _
        (fun kv hkv => jsonable_values_buildV1core c r ts hattrs hextra kv hkv)
    have hd : (jsonDump (.dict (buildV1core c r ts))).isSome = true :=
      jsonDump_isSome _ hjson
    obtain ⟨s, hs⟩ := Option.isSome_iff_exists.mp hd
    refine ⟨s, ?_⟩
    unfold formatV1 buildV1
    rw [hts]
    exact hs
  · have hjson : jsonableDict (buildV0fields c r) = true :=
      jsonableDict_of_forall _
        (fun kv hkv => jsonable_values_buildV0fields c r hattrs hextra kv hkv)
    have houter : jsonableDict
        [("@timestamp", PyValue.str ts),
         ("@message", PyValue.str r.renderedMessage),
         ("@source", PyValue.str
            (format_source c.message_type c.host (pathnameStr r))),
         ("@source_host", PyValue.str c.host),
         ("@source_path", PyValue.str (pathnameStr r)),
         ("@tags", PyValue.list (c.tags.map (fun t => PyValue.str t))),
         ("@type", PyValue.str c.message_type),
         ("@fields", PyValue.dict (buildV0fields c r))] = true := by
      apply jsonableDict_of_forall
      intro kv hkv
      simp only [List.mem_cons, List.not_mem_nil, or_false] at hkv
      rcases hkv with h7 | h7 | h7 | h7 | h7 | h7 | h7 | h7
      · rw [h7]; rfl
      · rw [h7]; rfl
      · rw [h7]; rfl
      · rw [h7]; rfl
      · rw [h7]; rfl
      · rw [h7]; exact jsonable_strList c.tags
      · rw [h7]; rfl
      · rw [h7]; exact hjson
    have hd : (jsonDump (.dict
        [("@timestamp", PyValue.str ts),
         ("@message", PyValue.str r.renderedMessage),
         ("@source", PyValue.str
            (format_source c.message_type c.host (pathnameStr r))),
         ("@source_host", PyValue.str c.host),
         ("@source_path", PyValue.str (pathnameStr r)),
         ("@tags", PyValue.list (c.tags.map (fun t => PyValue.str t))),
         ("@type", PyValue.str c.message_type),
         ("@fields", PyValue.dict (buildV0fields c r))])).isSome = true :=
      jsonDump_isSome _ houter
    obtain ⟨s, hs⟩ := Option.isSome_iff_exists.mp hd
    refine ⟨s, ?_⟩
    unfold formatV0 buildV0
    rw [hts]
    exact hs

/-- Witness for the amended C3 at the standard record and default
configuration. -/
theorem c3_format_serializes_witness :
    (∃ s, formatV1 cfgDefault recStd = some s) ∧
    (∃ s, formatV0 cfgDefault recStd = some s) :=
  c3_format_serializes cfgDefault recStd "2023-11-14T22:13:20.000Z"
    (by
      intro kv hkv
      simp only [recStd, List.mem_cons, List.not_mem_nil, or_false] at hkv
      rcases hkv with h | h | h | h | h | h | h | h | h | h | h | h | h | h |
        h | h | h | h | h | h | h
      all_goals (rw [h]; rfl))
    (by intro kv hkv; cases hkv)
    rfl

/-! ### Claims C5 and C6: the timestamp -/

theorem digit_isDigit (n : Nat) (h : n ≤ 9) :
    (Nat.digitChar n).isDigit = true := by
  interval_cases n <;> rfl

theorem yearLen_ge (y : Nat) : 365 ≤ yearLen y := by
  unfold yearLen
  split
  · omega
  · omega

theorem yearLen_le (y : Nat) : yearLen y ≤ 366 := by
  unfold yearLen
  split
  · omega
  · omega

theorem daysBeforeYoe_succ (y : Nat) :
    daysBeforeYoe (y + 1) = daysBeforeYoe y + yearLen y := rfl

theorem daysBeforeYoe_mono (a b : Nat) (h : a ≤ b) :
    daysBeforeYoe a ≤ daysBeforeYoe b := by
  induction b with
  | zero =>
      have : a = 0 := by omega
      rw [this]
  | succ n ih =>
      by_cases ha : a = n + 1
      · rw [ha]
      · have h1 : a ≤ n := by omega
        have h2 := ih h1
        rw [daysBeforeYoe_succ]
        omega

theorem daysBeforeYoe_400 : daysBeforeYoe 400 = 146097 := by decide

/-- Characterisation of the year scan: it conserves the total day count,
never moves the year backwards or beyond the fuel, and stops inside a
year whenever fuel remains. -/
theorem findYoe_char (fuel y rem : Nat) :
    y ≤ (findYoe fuel y rem).1 ∧
    (findYoe fuel y rem).1 ≤ y + fuel ∧
    daysBeforeYoe (findYoe fuel y rem).1 + (findYoe fuel y rem).2 =
      daysBeforeYoe y + rem ∧
    ((findYoe fuel y rem).1 < y + fuel →
      (findYoe fuel y rem).2 < yearLen (findYoe fuel y rem).1) := by
  induction fuel generalizing y rem with
  | zero =>
      unfold findYoe
      exact ⟨Nat.le_refl y, by omega, rfl, by omega⟩
  | succ n ih =>
      unfold findYoe
      by_cases hrem : rem < yearLen y
      · rw [if_pos hrem]
        exact ⟨Nat.le_refl y, by omega, rfl, fun _ => hrem⟩
      · rw [if_neg hrem]
        obtain ⟨i1, i2, i3, i4⟩ := ih (y + 1) (rem - yearLen y)
        refine ⟨by omega, by omega, ?_, by omega⟩
        rw [i3, daysBeforeYoe_succ]
        omega

theorem findYoe_doe (doe : Nat) (h : doe ≤ 146096) :
    (findYoe 400 0 doe).1 ≤ 399 ∧ (findYoe 400 0 doe).2 ≤ 365 ∧
    daysBeforeYoe (findYoe 400 0 doe).1 + (findYoe 400 0 doe).2 = doe := by
  obtain ⟨i1, i2, i3, i4⟩ := findYoe_char 400 0 doe
  have h0 : daysBeforeYoe 0 = 0 := rfl
  have hsum : daysBeforeYoe (findYoe 400 0 doe).1 + (findYoe 400 0 doe).2 =
      doe := by
    rw [i3, h0]
    omega
  have hy : (findYoe 400 0 doe).1 ≤ 399 := by
    by_contra hgt
    have h400 : (findYoe 400 0 doe).1 = 400 := by omega
    rw [h400, daysBeforeYoe_400] at hsum
    omega
  have hr : (findYoe 400 0 doe).2 ≤ 365 := by
    have hlt : (findYoe 400 0 doe).1 < 0 + 400 := by omega
    have h1 := i4 hlt
    have h2 := yearLen_le (findYoe 400 0 doe).1
    omega
  exact ⟨hy, hr, hsum⟩

theorem civilFromDays_bounds (z : Nat) :
    1 ≤ (civilFromDays z).2.1 ∧ (civilFromDays z).2.1 ≤ 12 ∧
    1 ≤ (civilFromDays z).2.2 ∧ (civilFromDays z).2.2 ≤ 31 := by
  unfold civilFromDays
  dsimp only
  have hdoe : z % 146097 ≤ 146096 := by omega
  obtain ⟨hy, hr, hsum⟩ := findYoe_doe (z % 146097) hdoe
  split_ifs <;> omega

theorem sub_trunc_rem (q : Rat) :
    -(q.den : Int) < q.num - ratTrunc q * (q.den : Int) ∧
    q.num - ratTrunc q * (q.den : Int) < (q.den : Int) := by
  have hden : 0 < (q.den : Int) := by
    have := q.den_pos
    omega
  unfold ratTrunc
  by_cases hn : 0 ≤ q.num
  · rw [if_pos hn]
    have h1 := Int.ediv_add_emod q.num (q.den : Int)
    have h2 := Int.emod_nonneg q.num (by omega : (q.den : Int) ≠ 0)
    have h3 := Int.emod_lt_of_pos q.num hden
    have hc : (q.den : Int) * (q.num / (q.den : Int)) =
        q.num / (q.den : Int) * (q.den : Int) := mul_comm _ _
    omega
  · rw [if_neg hn]
    have h1 := Int.ediv_add_emod (-q.num) (q.den : Int)
    have h2 := Int.emod_nonneg (-q.num) (by omega : (q.den : Int) ≠ 0)
    have h3 := Int.emod_lt_of_pos (-q.num) hden
    have hc : -(-q.num / (q.den : Int)) * (q.den : Int) =
        -((q.den : Int) * (-q.num / (q.den : Int))) := by ring
    omega

theorem pyRoundRatio_floor_bounds (a b : Int) (hb : 0 < b) :
    b * (a / b) ≤ a ∧ a < b * (a / b) + b := by
  have h1 := Int.ediv_add_emod a b
  have h2 := Int.emod_nonneg a (by omega : b ≠ 0)
  have h3 := Int.emod_lt_of_pos a hb
  omega

theorem pyRoundRatio_bounds (a b : Int) (hb : 0 < b)
    (hlo : -(b * 1000000) < a) (hhi : a < b * 1000000) :
    -1000000 ≤ pyRoundRatio a b ∧ pyRoundRatio a b ≤ 1000000 := by
  obtain ⟨hf1, hf2⟩ := pyRoundRatio_floor_bounds a b hb
  have hfl : -1000000 ≤ a / b := by
    by_contra hcon
    have h1 : a / b ≤ -1000001 := by omega
    have h2 : b * (a / b) ≤ b * (-1000001) :=
      Int.mul_le_mul_of_nonneg_left h1 (by omega)
    nlinarith
  have hfu : a / b ≤ 999999 := by
    by_contra hcon
    have h1 : 1000000 ≤ a / b := by omega
    have h2 : b * 1000000 ≤ b * (a / b) :=
      Int.mul_le_mul_of_nonneg_left h1 (by omega)
    omega
  unfold pyRoundRatio
  dsimp only
  split_ifs <;> omega

theorem usRound_bounds (q : Rat) :
    -1000000 ≤ usRound q ∧ usRound q ≤ 1000000 := by
  have hden : 0 < (q.den : Int) := by
    have := q.den_pos
    omega
  obtain ⟨hr1, hr2⟩ := sub_trunc_rem q
  unfold usRound
  apply pyRoundRatio_bounds _ _ hden
  · nlinarith
  · nlinarith

theorem utcTimestampParts_spec (q : Rat) (y m d hh mm ss us : Nat)
    (h : utcTimestampParts q = some (y, m, d, hh, mm, ss, us)) :
    1 ≤ y ∧ y ≤ 9999 ∧ 1 ≤ m ∧ m ≤ 12 ∧ 1 ≤ d ∧ d ≤ 31 ∧
    hh ≤ 23 ∧ mm ≤ 59 ∧ ss ≤ 59 ∧ us ≤ 999999 := by
  obtain ⟨hu1, hu2⟩ := usRound_bounds q
  unfold utcTimestampParts at h
  dsimp only at h
  split_ifs at h with h1 h2 h3 h4 h5 h6 h7 h8
  any_goals cases h
  · dsimp only at h2 h3 ⊢
    refine ⟨by omega, by omega, (civilFromDays_bounds _).1,
      (civilFromDays_bounds _).2.1, (civilFromDays_bounds _).2.2.1,
      (civilFromDays_bounds _).2.2.2, by omega, by omega,
      min_le_right _ _, by omega⟩
  · dsimp only at h5 h6 ⊢
    refine ⟨by omega, by omega, (civilFromDays_bounds _).1,
      (civilFromDays_bounds _).2.1, (civilFromDays_bounds _).2.2.1,
      (civilFromDays_bounds _).2.2.2, by omega, by omega,
      min_le_right _ _, by omega⟩
  · dsimp only at h7 h8 ⊢
    refine ⟨by omega, by omega, (civilFromDays_bounds _).1,
      (civilFromDays_bounds _).2.1, (civilFromDays_bounds _).2.2.1,
      (civilFromDays_bounds _).2.2.2, by omega, by omega,
      min_le_right _ _, by omega⟩

theorem timestampChars_shape (y m d hh mm ss us : Nat)
    (hy1 : 1000 ≤ y) (hy2 : y ≤ 9999) (hm2 : m ≤ 12)
    (hd2 : d ≤ 31) (hhh : hh ≤ 23) (hmm : mm ≤ 59)
    (hss : ss ≤ 59) (hus : us ≤ 999999) :
    isTimestampShape
      (String.mk (timestampChars (y, m, d, hh, mm, ss, us))) = true := by
  unfold timestampChars yearChars pad2Chars pad3Chars
  dsimp only
  rw [if_pos ⟨hy1, hy2⟩]
  rw [if_pos (by omega : m ≤ 99)]
  rw [if_pos (by omega : d ≤ 99)]
  rw [if_pos (by omega : hh ≤ 99)]
  rw [if_pos (by omega : mm ≤ 99)]
  rw [if_pos (by omega : ss ≤ 99)]
  rw [if_pos (by omega : us / 1000 ≤ 999)]
  show isTimestampShape (String.mk _) = true
  unfold isTimestampShape
  simp only [List.cons_append, List.nil_append]
  simp only [Bool.and_eq_true, beq_self_eq_true, and_true, true_and]
  repeat' apply And.intro
  all_goals apply digit_isDigit
  all_goals omega

/-- Claim C5 (counterexample): at epoch value 0.9999999 the formatted
timestamp is 1970-01-01T00:00:01.000Z, because utcfromtimestamp rounds
the fractional seconds to the nearest microsecond (999999.9 microseconds
round up to one full second); the truncation the specification describes
would give 1970-01-01T00:00:00.999Z.  The two disagree, so
sub-millisecond precision is not truncated. -/
theorem c5_counterexample :
    format_timestamp (Rat.divInt 9999999 10000000) =
      some "1970-01-01T00:00:01.000Z" ∧
    specTruncatedTimestamp (Rat.divInt 9999999 10000000) =
      some "1970-01-01T00:00:00.999Z" ∧
    ("1970-01-01T00:00:01.000Z" : String) ≠ "1970-01-01T00:00:00.999Z" :=
  ⟨rfl, rfl, by decide⟩

/-- Claim C5 (amended, corrected): whenever the conversion succeeds and
the UTC year has four digits (1000..9999; the year is always in 1..9999
when a string is produced, and below 1000 the unpadded %Y breaks the
four-digit shape), format_timestamp produces exactly the shape
YYYY-MM-DDTHH:MM:SS.mmmZ in UTC; the millisecond field is the rounded
microsecond count (nearest microsecond, ties to even) truncated to
milliseconds, not a pure truncation of the input. -/
theorem c5_timestamp_shape (q : Rat) (y m d hh mm ss us : Nat)
    (h : utcTimestampParts q = some (y, m, d, hh, mm, ss, us))
    (hy : 1000 ≤ y) :
    format_timestamp q =
      some (String.mk (timestampChars (y, m, d, hh, mm, ss, us))) ∧
    isTimestampShape
      (String.mk (timestampChars (y, m, d, hh, mm, ss, us))) = true := by
  obtain ⟨b1, b2, b3, b4, b5, b6, b7, b8, b9, b10⟩ :=
    utcTimestampParts_spec q y m d hh mm ss us h
  constructor
  · unfold format_timestamp
    rw [h]
    rfl
  · exact timestampChars_shape y m d hh mm ss us hy b2 b4 b6 b7 b8 b9 b10

/-- Witness for the amended C5 at epoch second 1700000000. -/
theorem c5_timestamp_shape_witness :
    format_timestamp 1700000000 =
      some (String.mk (timestampChars (2023, 11, 14, 22, 13, 20, 0))) ∧
    isTimestampShape
      (String.mk (timestampChars (2023, 11, 14, 22, 13, 20, 0))) = true :=
  c5_timestamp_shape 1700000000 2023 11 14 22 13 20 0 rfl (by omega)

theorem ratTrunc_eq (q : Rat) :
    ratTrunc q = if 0 ≤ q then ⌊q⌋ else ⌈q⌉ := by
  unfold ratTrunc
  by_cases h : 0 ≤ q.num
  · rw [if_pos h, if_pos (Rat.num_nonneg.mp h), Rat.floor_def]
  · rw [if_neg h, if_neg (fun hq => h (Rat.num_nonneg.mpr hq))]
    have h1 : ⌈q⌉ = -⌊-q⌋ := by
      rw [Int.floor_neg]
      omega
    rw [h1, Rat.floor_def, Rat.neg_num, Rat.neg_den]

theorem ratTrunc_mono (q1 q2 : Rat) (h : q1 ≤ q2) :
    ratTrunc q1 ≤ ratTrunc q2 := by
  rw [ratTrunc_eq, ratTrunc_eq]
  by_cases h1 : 0 ≤ q1
  · rw [if_pos h1, if_pos (le_trans h1 h)]
    exact Int.floor_mono h
  · rw [if_neg h1]
    by_cases h2 : 0 ≤ q2
    · rw [if_pos h2]
      have hc : ⌈q1⌉ ≤ 0 := Int.ceil_le.mpr (by push_cast; linarith)
      have hf : 0 ≤ ⌊q2⌋ := Int.le_floor.mpr (by push_cast; linarith)
      omega
    · rw [if_neg h2]
      exact Int.ceil_mono h

theorem frac_lt_one (q : Rat) : q - (ratTrunc q : Rat) < 1 := by
  rw [ratTrunc_eq]
  by_cases h : 0 ≤ q
  · rw [if_pos h]
    have := Int.lt_floor_add_one q
    push_cast at this ⊢
    linarith
  · rw [if_neg h]
    have := Int.le_ceil q
    push_cast at this ⊢
    linarith

theorem neg_one_lt_frac (q : Rat) : -1 < q - (ratTrunc q : Rat) := by
  rw [ratTrunc_eq]
  by_cases h : 0 ≤ q
  · rw [if_pos h]
    have := Int.floor_le q
    push_cast at this ⊢
    linarith
  · rw [if_neg h]
    have := Int.ceil_lt_add_one q
    push_cast at this ⊢
    linarith

theorem frac_nonneg_of_nonneg (q : Rat) (h : 0 ≤ q) :
    0 ≤ q - (ratTrunc q : Rat) := by
  rw [ratTrunc_eq, if_pos h]
  have := Int.floor_le q
  linarith

theorem frac_nonpos_of_neg (q : Rat) (h : ¬ 0 ≤ q) :
    q - (ratTrunc q : Rat) ≤ 0 := by
  rw [ratTrunc_eq, if_neg h]
  have := Int.le_ceil q
  linarith

theorem pyRoundQ_ge_floor (x : Rat) : ⌊x⌋ ≤ pyRoundQ x := by
  unfold pyRoundQ
  split_ifs <;> omega

theorem pyRoundQ_le_floor_add_one (x : Rat) : pyRoundQ x ≤ ⌊x⌋ + 1 := by
  unfold pyRoundQ
  split_ifs <;> omega

theorem pyRoundQ_mono (x y : Rat) (h : x ≤ y) : pyRoundQ x ≤ pyRoundQ y := by
  have hf := Int.floor_mono h
  by_cases heq : ⌊x⌋ = ⌊y⌋
  · unfold pyRoundQ
    rw [heq]
    have hr : x - (⌊y⌋ : Rat) ≤ y - (⌊y⌋ : Rat) := by linarith
    rw [heq] at *
    split_ifs <;> first | omega | linarith
  · have h1 := pyRoundQ_le_floor_add_one x
    have h2 := pyRoundQ_ge_floor y
    omega

theorem pyRoundQ_le_of_nonpos (x : Rat) (h : x ≤ 0) : pyRoundQ x ≤ 0 := by
  have hfq : (⌊x⌋ : Rat) ≤ 0 := le_trans (Int.floor_le x) h
  have hf : ⌊x⌋ ≤ 0 := by exact_mod_cast hfq
  unfold pyRoundQ
  split_ifs with c1 c2 c3
  · exact hf
  · have h2 : (⌊x⌋ : Rat) < -(1/2) := by linarith
    have h3 : (⌊x⌋ : Rat) < 0 := lt_trans h2 (by norm_num)
    have h4 : ⌊x⌋ < 0 := by exact_mod_cast h3
    omega
  · exact hf
  · have hr : x - (⌊x⌋ : Rat) = 1/2 := le_antisymm (not_lt.mp c2) (not_lt.mp c1)
    have h3 : (⌊x⌋ : Rat) < 0 := by linarith
    have h4 : ⌊x⌋ < 0 := by exact_mod_cast h3
    omega


theorem floor_intCast_div_intCast (a b : Int) (hb : 0 < b) :
    ⌊(a : Rat) / (b : Rat)⌋ = a / b := by
  obtain ⟨n, rfl⟩ : ∃ n : ℕ, b = (n : Int) := ⟨b.toNat, by omega⟩
  have h := Rat.floor_intCast_div_natCast a n
  rw [← h]
  norm_cast

theorem pyRoundRatio_eq_pyRoundQ (a b : Int) (hb : 0 < b) :
    pyRoundRatio a b = pyRoundQ ((a : Rat) / (b : Rat)) := by
  have hbq : (0 : Rat) < (b : Rat) := by exact_mod_cast hb
  have hfl := floor_intCast_div_intCast a b hb
  have hr : (a : Rat) / (b : Rat) - ((a / b : Int) : Rat) =
      ((a - a / b * b : Int) : Rat) / (b : Rat) := by
    push_cast
    field_simp
    ring
  have e1 : ((a : Rat) / (b : Rat) - ((a / b : Int) : Rat) < 1/2) ↔
      2 * (a - a / b * b) < b := by
    rw [hr, div_lt_iff₀ hbq]
    constructor
    · intro hq
      have h2 : 2 * ((a - a / b * b : Int) : Rat) < (b : Rat) := by linarith
      exact_mod_cast h2
    · intro hz
      have h2 : 2 * ((a - a / b * b : Int) : Rat) < (b : Rat) := by
        exact_mod_cast hz
      linarith
  have e2 : ((1 : Rat)/2 < (a : Rat) / (b : Rat) - ((a / b : Int) : Rat)) ↔
      b < 2 * (a - a / b * b) := by
    rw [hr, lt_div_iff₀ hbq]
    constructor
    · intro hq
      have h2 : (b : Rat) < 2 * ((a - a / b * b : Int) : Rat) := by linarith
      exact_mod_cast h2
    · intro hz
      have h2 : (b : Rat) < 2 * ((a - a / b * b : Int) : Rat) := by
        exact_mod_cast hz
      linarith
  unfold pyRoundRatio pyRoundQ
  dsimp only
  rw [hfl]
  by_cases c1 : 2 * (a - a / b * b) < b
  · rw [if_pos c1, if_pos (e1.mpr c1)]
  · rw [if_neg c1, if_neg (fun hq => c1 (e1.mp hq))]
    by_cases c2 : b < 2 * (a - a / b * b)
    · rw [if_pos c2, if_pos (e2.mpr c2)]
    · rw [if_neg c2, if_neg (fun hq => c2 (e2.mp hq))]

theorem usRound_eq (q : Rat) :
    usRound q = pyRoundQ ((q - (ratTrunc q : Rat)) * 1000000) := by
  have hden : (0 : Int) < (q.den : Int) := by
    have := q.den_pos
    omega
  have hdq : ((q.den : Int) : Rat) ≠ 0 := by
    push_cast
    exact_mod_cast Nat.pos_iff_ne_zero.mp q.den_pos
  have hdq2 : ((q.den : Nat) : Rat) ≠ 0 := by
    exact_mod_cast Nat.pos_iff_ne_zero.mp q.den_pos
  have hnum : ((q.num : Int) : Rat) = q * ((q.den : Nat) : Rat) := by
    have h1 := Rat.num_div_den q
    exact (div_eq_iff hdq2).mp h1
  unfold usRound
  rw [pyRoundRatio_eq_pyRoundQ _ _ hden]
  congr 1
  push_cast
  rw [div_eq_iff hdq2, hnum]
  ring

theorem usRound_le (q : Rat) : usRound q ≤ 1000000 := by
  rw [usRound_eq]
  have h1 := pyRoundQ_le_floor_add_one ((q - (ratTrunc q : Rat)) * 1000000)
  have h2 : (q - (ratTrunc q : Rat)) * 1000000 < 1000000 := by
    have := frac_lt_one q
    nlinarith
  have h3 : ⌊(q - (ratTrunc q : Rat)) * 1000000⌋ < 1000000 := by
    rw [Int.floor_lt]
    push_cast
    exact h2
  omega

theorem neg_le_usRound (q : Rat) : -1000000 ≤ usRound q := by
  rw [usRound_eq]
  have h1 := pyRoundQ_ge_floor ((q - (ratTrunc q : Rat)) * 1000000)
  have h2 : (-1000000 : Rat) ≤ (q - (ratTrunc q : Rat)) * 1000000 := by
    have := neg_one_lt_frac q
    nlinarith
  have h3 : (-1000000 : Int) ≤ ⌊(q - (ratTrunc q : Rat)) * 1000000⌋ := by
    rw [Int.le_floor]
    push_cast
    exact h2
  omega

theorem usRound_nonneg_of_nonneg (q : Rat) (h : 0 ≤ q) : 0 ≤ usRound q := by
  rw [usRound_eq]
  have h1 := pyRoundQ_ge_floor ((q - (ratTrunc q : Rat)) * 1000000)
  have h2 : (0 : Rat) ≤ (q - (ratTrunc q : Rat)) * 1000000 := by
    have := frac_nonneg_of_nonneg q h
    nlinarith
  have h3 : (0 : Int) ≤ ⌊(q - (ratTrunc q : Rat)) * 1000000⌋ := by
    rw [Int.le_floor]
    push_cast
    exact h2
  omega

theorem usRound_nonpos_of_neg (q : Rat) (h : ¬ 0 ≤ q) : usRound q ≤ 0 := by
  rw [usRound_eq]
  apply pyRoundQ_le_of_nonpos
  have := frac_nonpos_of_neg q h
  nlinarith

theorem totalMicros_mono (q1 q2 : Rat) (h : q1 ≤ q2) :
    totalMicros q1 ≤ totalMicros q2 := by
  unfold totalMicros
  have ht := ratTrunc_mono q1 q2 h
  by_cases hteq : ratTrunc q1 = ratTrunc q2
  · rw [hteq]
    have hx : (q1 - (ratTrunc q2 : Rat)) * 1000000 ≤
        (q2 - (ratTrunc q2 : Rat)) * 1000000 := by nlinarith
    have := pyRoundQ_mono _ _ hx
    rw [usRound_eq, usRound_eq, hteq]
    omega
  · have ht1 : ratTrunc q1 + 1 ≤ ratTrunc q2 := by omega
    by_cases hq1 : 0 ≤ q1
    · have hq2 : 0 ≤ q2 := le_trans hq1 h
      have hu1 := usRound_le q1
      have hu2 := usRound_nonneg_of_nonneg q2 hq2
      nlinarith
    · have hu1 := usRound_nonpos_of_neg q1 hq1
      have hu2 := neg_le_usRound q2
      nlinarith

theorem utcTimestampParts_char (q : Rat) (y m d hh mm ss us : Nat)
    (h : utcTimestampParts q = some (y, m, d, hh, mm, ss, us)) :
    (us : Int) = totalMicros q % 1000000 ∧
    0 ≤ totalMicros q / 1000000 / 86400 + 719468 ∧
    (y, m, d) = civilFromDays
      (totalMicros q / 1000000 / 86400 + 719468).toNat ∧
    hh = ((totalMicros q / 1000000) % 86400).toNat / 3600 ∧
    mm = ((totalMicros q / 1000000) % 86400).toNat % 3600 / 60 ∧
    ss = ((totalMicros q / 1000000) % 86400).toNat % 60 := by
  have hb1 := usRound_le q
  have hb2 := neg_le_usRound q
  unfold utcTimestampParts at h
  dsimp only at h
  split_ifs at h with h1 h2 h3 h4 h5 h6 h7 h8
  any_goals cases h
  · dsimp only at h2 h3 ⊢
    have he : totalMicros q / 1000000 = ratTrunc q + 1 ∧
        totalMicros q % 1000000 = usRound q - 1000000 := by
      unfold totalMicros
      omega
    rw [he.1, he.2]
    refine ⟨by omega, by omega, rfl, rfl, rfl, Nat.min_eq_left (by omega)⟩
  · dsimp only at h5 h6 ⊢
    have he : totalMicros q / 1000000 = ratTrunc q - 1 ∧
        totalMicros q % 1000000 = usRound q + 1000000 := by
      unfold totalMicros
      omega
    rw [he.1, he.2]
    refine ⟨by omega, by omega, rfl, rfl, rfl, Nat.min_eq_left (by omega)⟩
  · dsimp only at h7 h8 ⊢
    have he : totalMicros q / 1000000 = ratTrunc q ∧
        totalMicros q % 1000000 = usRound q := by
      unfold totalMicros
      omega
    rw [he.1, he.2]
    refine ⟨by omega, by omega, rfl, rfl, rfl, Nat.min_eq_left (by omega)⟩

theorem findYoe_mono_strict (doe1 doe2 : Nat) (h1 : doe1 ≤ 146096)
    (h2 : doe2 ≤ 146096) (h : doe1 < doe2) :
    (findYoe 400 0 doe1).1 < (findYoe 400 0 doe2).1 ∨
    ((findYoe 400 0 doe1).1 = (findYoe 400 0 doe2).1 ∧
      (findYoe 400 0 doe1).2 < (findYoe 400 0 doe2).2) := by
  obtain ⟨hy1, hr1, hs1⟩ := findYoe_doe doe1 h1
  obtain ⟨hy2, hr2, hs2⟩ := findYoe_doe doe2 h2
  obtain ⟨i1, i2, i3, i4⟩ := findYoe_char 400 0 doe2
  have hlt2 : (findYoe 400 0 doe2).2 < yearLen (findYoe 400 0 doe2).1 :=
    i4 (by omega)
  by_cases hyy : (findYoe 400 0 doe1).1 ≤ (findYoe 400 0 doe2).1
  · by_cases hyeq : (findYoe 400 0 doe1).1 = (findYoe 400 0 doe2).1
    · right
      refine ⟨hyeq, ?_⟩
      rw [hyeq] at hs1
      omega
    · left
      omega
  · exfalso
    have hsucc : (findYoe 400 0 doe2).1 + 1 ≤ (findYoe 400 0 doe1).1 := by
      omega
    have hm := daysBeforeYoe_mono _ _ hsucc
    rw [daysBeforeYoe_succ] at hm
    omega

theorem dateTuple_strict (Y1 Y2 doy1 doy2 : Nat)
    (hd1 : doy1 ≤ 365) (hd2 : doy2 ≤ 365)
    (hY : Y1 < Y2 ∨ (Y1 = Y2 ∧ doy1 < doy2)) :
    (Y1 + (if (if (5 * doy1 + 2) / 153 < 10 then (5 * doy1 + 2) / 153 + 3
            else (5 * doy1 + 2) / 153 - 9) ≤ 2 then 1 else 0) <
     Y2 + (if (if (5 * doy2 + 2) / 153 < 10 then (5 * doy2 + 2) / 153 + 3
            else (5 * doy2 + 2) / 153 - 9) ≤ 2 then 1 else 0)) ∨
    ((Y1 + (if (if (5 * doy1 + 2) / 153 < 10 then (5 * doy1 + 2) / 153 + 3
            else (5 * doy1 + 2) / 153 - 9) ≤ 2 then 1 else 0) =
      Y2 + (if (if (5 * doy2 + 2) / 153 < 10 then (5 * doy2 + 2) / 153 + 3
            else (5 * doy2 + 2) / 153 - 9) ≤ 2 then 1 else 0)) ∧
     ((if (5 * doy1 + 2) / 153 < 10 then (5 * doy1 + 2) / 153 + 3
       else (5 * doy1 + 2) / 153 - 9) <
      (if (5 * doy2 + 2) / 153 < 10 then (5 * doy2 + 2) / 153 + 3
       else (5 * doy2 + 2) / 153 - 9) ∨
      ((if (5 * doy1 + 2) / 153 < 10 then (5 * doy1 + 2) / 153 + 3
        else (5 * doy1 + 2) / 153 - 9) =
       (if (5 * doy2 + 2) / 153 < 10 then (5 * doy2 + 2) / 153 + 3
        else (5 * doy2 + 2) / 153 - 9) ∧
       doy1 - (153 * ((5 * doy1 + 2) / 153) + 2) / 5 + 1 <
         doy2 - (153 * ((5 * doy2 + 2) / 153) + 2) / 5 + 1))) := by
  split_ifs <;> omega

theorem civilFromDays_strict_lex (z1 z2 : Nat) (h : z1 < z2) :
    (civilFromDays z1).1 < (civilFromDays z2).1 ∨
    ((civilFromDays z1).1 = (civilFromDays z2).1 ∧
      ((civilFromDays z1).2.1 < (civilFromDays z2).2.1 ∨
       ((civilFromDays z1).2.1 = (civilFromDays z2).2.1 ∧
        (civilFromDays z1).2.2 < (civilFromDays z2).2.2))) := by
  have hdoe1 : z1 % 146097 ≤ 146096 := by omega
  have hdoe2 : z2 % 146097 ≤ 146096 := by omega
  obtain ⟨hy1, hr1, hs1⟩ := findYoe_doe (z1 % 146097) hdoe1
  obtain ⟨hy2, hr2, hs2⟩ := findYoe_doe (z2 % 146097) hdoe2
  have hY : (z1 / 146097) * 400 + (findYoe 400 0 (z1 % 146097)).1 <
        (z2 / 146097) * 400 + (findYoe 400 0 (z2 % 146097)).1 ∨
      ((z1 / 146097) * 400 + (findYoe 400 0 (z1 % 146097)).1 =
        (z2 / 146097) * 400 + (findYoe 400 0 (z2 % 146097)).1 ∧
       (findYoe 400 0 (z1 % 146097)).2 < (findYoe 400 0 (z2 % 146097)).2) := by
    by_cases hera : z1 / 146097 = z2 / 146097
    · have hdlt : z1 % 146097 < z2 % 146097 := by omega
      rcases findYoe_mono_strict _ _ hdoe1 hdoe2 hdlt with hlt | ⟨heq, hdoy⟩
      · left
        omega
      · right
        rw [hera, heq]
        exact ⟨rfl, hdoy⟩
    · have hera2 : z1 / 146097 < z2 / 146097 := by omega
      left
      omega
  have hmain := dateTuple_strict
    ((z1 / 146097) * 400 + (findYoe 400 0 (z1 % 146097)).1)
    ((z2 / 146097) * 400 + (findYoe 400 0 (z2 % 146097)).1)
    (findYoe 400 0 (z1 % 146097)).2 (findYoe 400 0 (z2 % 146097)).2
    hr1 hr2 hY
  exact hmain

theorem partsTupleLe (q1 q2 : Rat)
    (y1 m1 d1 hh1 mm1 ss1 us1 y2 m2 d2 hh2 mm2 ss2 us2 : Nat)
    (h1 : utcTimestampParts q1 = some (y1, m1, d1, hh1, mm1, ss1, us1))
    (h2 : utcTimestampParts q2 = some (y2, m2, d2, hh2, mm2, ss2, us2))
    (hle : q1 ≤ q2) :
    y1 < y2 ∨ (y1 = y2 ∧ (m1 < m2 ∨ (m1 = m2 ∧ (d1 < d2 ∨ (d1 = d2 ∧
      (hh1 < hh2 ∨ (hh1 = hh2 ∧ (mm1 < mm2 ∨ (mm1 = mm2 ∧
        (ss1 < ss2 ∨ (ss1 = ss2 ∧ us1 ≤ us2))))))))))) := by
  have htm := totalMicros_mono q1 q2 hle
  obtain ⟨c1us, c1z, c1ymd, c1hh, c1mm, c1ss⟩ :=
    utcTimestampParts_char q1 y1 m1 d1 hh1 mm1 ss1 us1 h1
  obtain ⟨c2us, c2z, c2ymd, c2hh, c2mm, c2ss⟩ :=
    utcTimestampParts_char q2 y2 m2 d2 hh2 mm2 ss2 us2 h2
  by_cases hdays : totalMicros q1 / 1000000 / 86400 =
      totalMicros q2 / 1000000 / 86400
  · -- same day: dates equal, compare the time of day
    have hz : (totalMicros q1 / 1000000 / 86400 + 719468).toNat =
        (totalMicros q2 / 1000000 / 86400 + 719468).toNat := by omega
    rw [hz] at c1ymd
    rw [← c2ymd] at c1ymd
    obtain ⟨hy, hm, hd⟩ : y1 = y2 ∧ m1 = m2 ∧ d1 = d2 := by
      have e1 : y1 = y2 := congrArg Prod.fst c1ymd
      have e2 : (m1, d1) = (m2, d2) := congrArg Prod.snd c1ymd
      exact ⟨e1, congrArg Prod.fst e2, congrArg Prod.snd e2⟩
    subst hy hm hd
    right
    refine ⟨rfl, ?_⟩
    right
    refine ⟨rfl, ?_⟩
    right
    refine ⟨rfl, ?_⟩
    rw [c1hh, c1mm, c1ss, c2hh, c2mm, c2ss]
    omega
  · -- different days: the date is strictly smaller
    have hdlt : totalMicros q1 / 1000000 / 86400 <
        totalMicros q2 / 1000000 / 86400 := by omega
    have hzlt : (totalMicros q1 / 1000000 / 86400 + 719468).toNat <
        (totalMicros q2 / 1000000 / 86400 + 719468).toNat := by omega
    have hciv := civilFromDays_strict_lex _ _ hzlt
    rw [← c1ymd, ← c2ymd] at hciv
    dsimp only at hciv
    rcases hciv with hlt | ⟨heq, hrest⟩
    · exact Or.inl hlt
    · right
      refine ⟨heq, ?_⟩
      rcases hrest with hlt | ⟨heq2, hlt2⟩
      · exact Or.inl hlt
      · right
        exact ⟨heq2, Or.inl hlt2⟩

theorem charLexLe_cons_same (c : Char) (a b : List Char) :
    charLexLe (c :: a) (c :: b) = charLexLe a b := by
  have he : charLexLe (c :: a) (c :: b) =
      if c.toNat < c.toNat then true
      else if c.toNat < c.toNat then false else charLexLe a b := rfl
  rw [he, if_neg (Nat.lt_irrefl _), if_neg (Nat.lt_irrefl _)]

theorem charLexLe_refl (l : List Char) : charLexLe l l = true := by
  induction l with
  | nil => rfl
  | cons c rest ih =>
      rw [charLexLe_cons_same]
      exact ih

theorem charLexLe_append_same (p a b : List Char) :
    charLexLe (p ++ a) (p ++ b) = charLexLe a b := by
  induction p with
  | nil => rfl
  | cons c rest ih =>
      simp only [List.cons_append]
      rw [charLexLe_cons_same]
      exact ih

theorem digitChar_toNat_lt (a : Nat) (ha : a ≤ 9) (b : Nat) (hb : b ≤ 9)
    (h : a < b) : (Nat.digitChar a).toNat < (Nat.digitChar b).toNat := by
  interval_cases a <;> interval_cases b <;> first | omega | decide

theorem charLexLe_digit_head (a b : Nat) (ha : a ≤ 9) (hb : b ≤ 9)
    (h : a < b) (r1 r2 : List Char) :
    charLexLe (Nat.digitChar a :: r1) (Nat.digitChar b :: r2) = true := by
  unfold charLexLe
  rw [if_pos (digitChar_toNat_lt a ha b hb h)]

theorem charLexLe_pad2_lt (a b : Nat) (ha : a ≤ 99) (hb : b ≤ 99)
    (h : a < b) (r1 r2 : List Char) :
    charLexLe (pad2Chars a ++ r1) (pad2Chars b ++ r2) = true := by
  unfold pad2Chars
  rw [if_pos ha, if_pos hb]
  simp only [List.cons_append, List.nil_append]
  have hd : a / 10 < b / 10 ∨ (a / 10 = b / 10 ∧ a % 10 < b % 10) := by omega
  rcases hd with hd | ⟨he, hd⟩
  · exact charLexLe_digit_head _ _ (by omega) (by omega) hd _ _
  · rw [he, charLexLe_cons_same]
    exact charLexLe_digit_head _ _ (by omega) (by omega) hd _ _

theorem charLexLe_pad3_lt (a b : Nat) (ha : a ≤ 999) (hb : b ≤ 999)
    (h : a < b) (r1 r2 : List Char) :
    charLexLe (pad3Chars a ++ r1) (pad3Chars b ++ r2) = true := by
  unfold pad3Chars
  rw [if_pos ha, if_pos hb]
  simp only [List.cons_append, List.nil_append]
  have hd : a / 100 < b / 100 ∨ (a / 100 = b / 100 ∧
      (a / 10 % 10 < b / 10 % 10 ∨ (a / 10 % 10 = b / 10 % 10 ∧
        a % 10 < b % 10))) := by omega
  rcases hd with hd | ⟨he, hd | ⟨he2, hd⟩⟩
  · exact charLexLe_digit_head _ _ (by omega) (by omega) hd _ _
  · rw [he, charLexLe_cons_same]
    exact charLexLe_digit_head _ _ (by omega) (by omega) hd _ _
  · rw [he, he2, charLexLe_cons_same, charLexLe_cons_same]
    exact charLexLe_digit_head _ _ (by omega) (by omega) hd _ _

theorem charLexLe_year_lt (a b : Nat) (ha1 : 1000 ≤ a) (ha2 : a ≤ 9999)
    (hb1 : 1000 ≤ b) (hb2 : b ≤ 9999) (h : a < b) (r1 r2 : List Char) :
    charLexLe (yearChars a ++ r1) (yearChars b ++ r2) = true := by
  unfold yearChars
  rw [if_pos ⟨ha1, ha2⟩, if_pos ⟨hb1, hb2⟩]
  simp only [List.cons_append, List.nil_append]
  have hd : a / 1000 < b / 1000 ∨ (a / 1000 = b / 1000 ∧
      (a / 100 % 10 < b / 100 % 10 ∨ (a / 100 % 10 = b / 100 % 10 ∧
        (a / 10 % 10 < b / 10 % 10 ∨ (a / 10 % 10 = b / 10 % 10 ∧
          a % 10 < b % 10))))) := by omega
  rcases hd with hd | ⟨he, hd | ⟨he2, hd | ⟨he3, hd⟩⟩⟩
  · exact charLexLe_digit_head _ _ (by omega) (by omega) hd _ _
  · rw [he, charLexLe_cons_same]
    exact charLexLe_digit_head _ _ (by omega) (by omega) hd _ _
  · rw [he, he2, charLexLe_cons_same, charLexLe_cons_same]
    exact charLexLe_digit_head _ _ (by omega) (by omega) hd _ _
  · rw [he, he2, he3, charLexLe_cons_same, charLexLe_cons_same,
      charLexLe_cons_same]
    exact charLexLe_digit_head _ _ (by omega) (by omega) hd _ _

theorem timestampChars_le
    (y1 m1 d1 hh1 mm1 ss1 us1 y2 m2 d2 hh2 mm2 ss2 us2 : Nat)
    (hy11 : 1000 ≤ y1) (hy12 : y1 ≤ 9999)
    (hy21 : 1000 ≤ y2) (hy22 : y2 ≤ 9999)
    (hm1 : m1 ≤ 99) (hm2 : m2 ≤ 99) (hd1 : d1 ≤ 99) (hd2 : d2 ≤ 99)
    (hhh1 : hh1 ≤ 99) (hhh2 : hh2 ≤ 99) (hmm1 : mm1 ≤ 99) (hmm2 : mm2 ≤ 99)
    (hss1 : ss1 ≤ 99) (hss2 : ss2 ≤ 99)
    (_hus1 : us1 ≤ 999999) (hus2 : us2 ≤ 999999)
    (hlex : y1 < y2 ∨ (y1 = y2 ∧ (m1 < m2 ∨ (m1 = m2 ∧ (d1 < d2 ∨ (d1 = d2 ∧
      (hh1 < hh2 ∨ (hh1 = hh2 ∧ (mm1 < mm2 ∨ (mm1 = mm2 ∧
        (ss1 < ss2 ∨ (ss1 = ss2 ∧ us1 ≤ us2)))))))))))) :
    charLexLe (timestampChars (y1, m1, d1, hh1, mm1, ss1, us1))
      (timestampChars (y2, m2, d2, hh2, mm2, ss2, us2)) = true := by
  unfold timestampChars
  dsimp only
  simp only [List.append_assoc, List.cons_append, List.nil_append]
  rcases hlex with h | ⟨rfl, hlex⟩
  · exact charLexLe_year_lt _ _ hy11 hy12 hy21 hy22 h _ _
  · rw [charLexLe_append_same, charLexLe_cons_same]
    rcases hlex with h | ⟨rfl, hlex⟩
    · exact charLexLe_pad2_lt _ _ hm1 hm2 h _ _
    · rw [charLexLe_append_same, charLexLe_cons_same]
      rcases hlex with h | ⟨rfl, hlex⟩
      · exact charLexLe_pad2_lt _ _ hd1 hd2 h _ _
      · rw [charLexLe_append_same, charLexLe_cons_same]
        rcases hlex with h | ⟨rfl, hlex⟩
        · exact charLexLe_pad2_lt _ _ hhh1 hhh2 h _ _
        · rw [charLexLe_append_same, charLexLe_cons_same]
          rcases hlex with h | ⟨rfl, hlex⟩
          · exact charLexLe_pad2_lt _ _ hmm1 hmm2 h _ _
          · rw [charLexLe_append_same, charLexLe_cons_same]
            rcases hlex with h | ⟨rfl, hlex⟩
            · exact charLexLe_pad2_lt _ _ hss1 hss2 h _ _
            · rw [charLexLe_append_same, charLexLe_cons_same]
              by_cases hms : us1 / 1000 = us2 / 1000
              · rw [hms, charLexLe_append_same]
                exact charLexLe_refl _
              · exact charLexLe_pad3_lt _ _ (by omega) (by omega)
                  (by omega) _ _

/-- Claim C6 (amended, corrected): for any two epoch values q1 ≤ q2 whose
conversions succeed and whose UTC years both have four digits
(1000..9999), the formatted timestamps are lexicographically ordered
(code-point order): the timestamp string is monotonically non-decreasing
in the input time on that range.  Below year 1000 the unpadded %Y breaks
lexicographic monotonicity, as the counterexample shows. -/
theorem c6_timestamp_monotone (q1 q2 : Rat)
    (y1 m1 d1 hh1 mm1 ss1 us1 y2 m2 d2 hh2 mm2 ss2 us2 : Nat)
    (h1 : utcTimestampParts q1 = some (y1, m1, d1, hh1, mm1, ss1, us1))
    (h2 : utcTimestampParts q2 = some (y2, m2, d2, hh2, mm2, ss2, us2))
    (hle : q1 ≤ q2) (hy1 : 1000 ≤ y1) (hy2 : 1000 ≤ y2) :
    format_timestamp q1 =
      some (String.mk (timestampChars (y1, m1, d1, hh1, mm1, ss1, us1))) ∧
    format_timestamp q2 =
      some (String.mk (timestampChars (y2, m2, d2, hh2, mm2, ss2, us2))) ∧
    strLe (String.mk (timestampChars (y1, m1, d1, hh1, mm1, ss1, us1)))
      (String.mk (timestampChars (y2, m2, d2, hh2, mm2, ss2, us2))) = true := by
  obtain ⟨a1, a2, a3, a4, a5, a6, a7, a8, a9, a10⟩ :=
    utcTimestampParts_spec q1 y1 m1 d1 hh1 mm1 ss1 us1 h1
  obtain ⟨b1, b2, b3, b4, b5, b6, b7, b8, b9, b10⟩ :=
    utcTimestampParts_spec q2 y2 m2 d2 hh2 mm2 ss2 us2 h2
  have htuple := partsTupleLe q1 q2 y1 m1 d1 hh1 mm1 ss1 us1
    y2 m2 d2 hh2 mm2 ss2 us2 h1 h2 hle
  refine ⟨?_, ?_, ?_⟩
  · unfold format_timestamp
    rw [h1]
    rfl
  · unfold format_timestamp
    rw [h2]
    rfl
  · show charLexLe (timestampChars (y1, m1, d1, hh1, mm1, ss1, us1))
      (timestampChars (y2, m2, d2, hh2, mm2, ss2, us2)) = true
    exact timestampChars_le y1 m1 d1 hh1 mm1 ss1 us1 y2 m2 d2 hh2 mm2 ss2 us2
      hy1 a2 hy2 b2 (by omega) (by omega) (by omega) (by omega) (by omega)
      (by omega) (by omega) (by omega) (by omega) (by omega) a10 b10 htuple

/-- Claim C6 (counterexample): across the year 999 to 1000 boundary the
timestamps are not lexicographically ordered: strftime's %Y writes year
999 without leading zeros, and "999-12-31T23:59:59.000Z" compares
lexicographically greater than "1000-01-01T00:00:00.000Z" although it is
one second earlier. -/
theorem c6_counterexample :
    ((-30610224001 : Rat) ≤ (-30610224000 : Rat)) ∧
    format_timestamp (-30610224001) = some "999-12-31T23:59:59.000Z" ∧
    format_timestamp (-30610224000) = some "1000-01-01T00:00:00.000Z" ∧
    strLe "999-12-31T23:59:59.000Z" "1000-01-01T00:00:00.000Z" = false :=
  ⟨by norm_num, rfl, rfl, by decide⟩

/-- Witness for the amended C6 at epoch seconds 0 and 1. -/
theorem c6_timestamp_monotone_witness :
    format_timestamp 0 =
      some (String.mk (timestampChars (1970, 1, 1, 0, 0, 0, 0))) ∧
    format_timestamp 1 =
      some (String.mk (timestampChars (1970, 1, 1, 0, 0, 1, 0))) ∧
    strLe (String.mk (timestampChars (1970, 1, 1, 0, 0, 0, 0)))
      (String.mk (timestampChars (1970, 1, 1, 0, 0, 1, 0))) = true :=
  c6_timestamp_monotone 0 1 1970 1 1 0 0 0 0 1970 1 1 0 0 1 0 rfl rfl
    (by norm_num) (by omega) (by omega)
